import Mathlib

/-!
Verification of the Hydra gateway core: a shallow embedding of the
rate limiter, credential registry, router and fallback executor of the
source repository, together with theorems about the properties stated in
the specification.  Redis hashes are modelled as association lists, the
Redis sets as duplicate-free lists, wall-clock timestamps as integer
clock readings,
and the asynchronous upstream client as an explicit outcome oracle.
-/

namespace Hydra

/-! ## Association-list model of Redis hashes -/

/-- Lookup of the first binding of a key in an association list,
mirroring a Redis hash field read. -/
def alistGet {κ α : Type} [DecidableEq κ] : List (κ × α) → κ → Option α
  | [], _ => none
  | (k0, v0) :: t, k => if k0 = k then some v0 else alistGet t k

/-- Overwrite of a binding in an association list, appending when the key
is absent, mirroring a Redis hash field write. -/
def alistSet {κ α : Type} [DecidableEq κ] : List (κ × α) → κ → α → List (κ × α)
  | [], k, v => [(k, v)]
  | (k0, v0) :: t, k, v => if k0 = k then (k, v) :: t else (k0, v0) :: alistSet t k v

/-- Addition to a Redis set: a no-op when the element is already present. -/
def saddList {α : Type} [DecidableEq α] (s : List α) (x : α) : List α :=
  if x ∈ s then s else s ++ [x]

/-- Removal from a Redis set: drops every occurrence of the element. -/
def sremList {α : Type} [DecidableEq α] (s : List α) (x : α) : List α :=
  s.filter (fun y => y ≠ x)

/-! ## Model catalog constants, from hydra.core.constants -/

def GEMINI_3_FLASH : String := "gemini-3-flash-preview"
def GEMINI_25_PRO : String := "gemini-2.5-pro"
def GEMINI_25_FLASH : String := "gemini-2.5-flash"
def GEMINI_25_FLASH_LITE : String := "gemini-2.5-flash-lite"
def GEMINI_25_FLASH_IMAGE : String := "gemini-2.5-flash-image"
def GEMINI_EMBEDDING : String := "gemini-embedding-001"

def MODEL_PRIORITY : List String :=
  [GEMINI_25_PRO, GEMINI_3_FLASH, GEMINI_25_FLASH, GEMINI_25_FLASH_LITE]

def IMAGE_MODEL_PRIORITY : List String := [GEMINI_25_FLASH_IMAGE]

/-- Rate-limit triple of one catalog model. -/
structure RateLimits where
  rpm : Nat
  rpd : Nat
  tpm : Nat
deriving Repr, DecidableEq

/-- Free-tier rate limits per model, the MODEL_RATE_LIMITS table. -/
def MODEL_RATE_LIMITS (model : String) : Option RateLimits :=
  if model = GEMINI_3_FLASH then some ⟨5, 50, 250000⟩
  else if model = GEMINI_25_PRO then some ⟨5, 100, 250000⟩
  else if model = GEMINI_25_FLASH then some ⟨15, 1500, 1000000⟩
  else if model = GEMINI_25_FLASH_IMAGE then some ⟨10, 25, 250000⟩
  else if model = GEMINI_25_FLASH_LITE then some ⟨15, 1000, 250000⟩
  else if model = GEMINI_EMBEDDING then some ⟨15, 1500, 1000000⟩
  else none

def CAP_TEXT : String := "text"
def CAP_THINKING : String := "thinking"
def CAP_FUNCTION_CALLING : String := "function_calling"
def CAP_SEARCH_GROUNDING : String := "search_grounding"
def CAP_CODE_EXECUTION : String := "code_execution"
def CAP_URL_CONTEXT : String := "url_context"
def CAP_STRUCTURED_OUTPUT : String := "structured_output"
def CAP_MULTIMODAL_INPUT : String := "multimodal_input"
def CAP_IMAGE_GENERATION : String := "image_generation"
def CAP_EMBEDDING : String := "embedding"

def TEXT_MODEL_CAPS : List String :=
  [CAP_TEXT, CAP_THINKING, CAP_FUNCTION_CALLING, CAP_SEARCH_GROUNDING,
   CAP_CODE_EXECUTION, CAP_URL_CONTEXT, CAP_STRUCTURED_OUTPUT, CAP_MULTIMODAL_INPUT]

/-- Capability set per model, the MODEL_CAPABILITIES table. -/
def MODEL_CAPABILITIES (model : String) : List String :=
  if model = GEMINI_3_FLASH then TEXT_MODEL_CAPS
  else if model = GEMINI_25_PRO then TEXT_MODEL_CAPS
  else if model = GEMINI_25_FLASH then TEXT_MODEL_CAPS
  else if model = GEMINI_25_FLASH_IMAGE then [CAP_TEXT, CAP_IMAGE_GENERATION]
  else if model = GEMINI_25_FLASH_LITE then TEXT_MODEL_CAPS
  else if model = GEMINI_EMBEDDING then [CAP_EMBEDDING]
  else []

def HEALTH_SCORE_MAX : Int := 100
def HEALTH_SCORE_SUCCESS_DELTA : Int := 5
def HEALTH_SCORE_FAILURE_DELTA : Int := -10
def HEALTH_CONSECUTIVE_ERROR_DISABLE : Nat := 5

/-! ## Rate limiter, from hydra.services.rate_limiter -/

/-- One TPM token entry, a JSON object with fields ts and count.
Timestamps are modelled as integer clock values. -/
structure TokenEntry where
  ts : Int
  count : Nat
deriving Repr, DecidableEq

/-- Stored fields of one ratelimit:{key_hash}:{model} Redis hash.  A missing
hash reads as the empty record, matching the defaults the source supplies
to raw.get. -/
structure RateLimitRecord where
  requests : List Int := []
  tokens : List TokenEntry := []
  rpd_count : Nat := 0
  last_rpd_reset : String := ""
  rpm_limit : Nat := 0
  rpd_limit : Nat := 0
  tpm_limit : Nat := 0
deriving Repr, DecidableEq

/-- Rate-limiter portion of the Redis keyspace, keyed by (key_hash, model). -/
abbrev RateLimitStore : Type := List ((String × String) × RateLimitRecord)

/-- Record read with the per-field defaults of the source. -/
def getRateRecord (store : RateLimitStore) (key_hash model : String) : RateLimitRecord :=
  (alistGet store (key_hash, model)).getD {}

def rpmReason (n : Nat) : String := "RPM limit (" ++ toString n ++ ") reached"
def rpdReason (n : Nat) : String := "RPD limit (" ++ toString n ++ ") reached"
def tpmReason (n : Nat) : String := "TPM limit (" ++ toString n ++ ") would be exceeded"
def unknownModelReason (model : String) : String := "Unknown model " ++ model

/-- RateLimiter.check_rate_limit: returns (can_proceed, reason_if_blocked).
The wall clock value now and the Pacific date string today are explicit
parameters of the embedding. -/
def check_rate_limit (store : RateLimitStore) (key_hash model : String)
    (estimated_tokens : Nat) (now : Int) (today : String) : Bool × Option String :=
  match MODEL_RATE_LIMITS model with
  | none => (false, some (unknownModelReason model))
  | some limits =>
    let raw := getRateRecord store key_hash model
    let window_start := now - 60
    let recent := raw.requests.filter (fun ts => window_start < ts)
    if limits.rpm ≤ recent.length then
      (false, some (rpmReason limits.rpm))
    else
      let rpd_count := if raw.last_rpd_reset ≠ today then 0 else raw.rpd_count
      if limits.rpd ≤ rpd_count then
        (false, some (rpdReason limits.rpd))
      else
        let recent_tokens :=
          ((raw.tokens.filter (fun e => window_start < e.ts)).map (fun e => e.count)).sum
        if limits.tpm < recent_tokens + estimated_tokens then
          (false, some (tpmReason limits.tpm))
        else
          (true, none)

/-- RateLimiter.record_request: append the request timestamp and token entry,
advance the daily counter (resetting on a date-stamp change), stamp the date
and refresh the cached limit triple. -/
def record_request (store : RateLimitStore) (key_hash model : String)
    (tokens_used : Nat) (now : Int) (today : String) : RateLimitStore :=
  let raw := getRateRecord store key_hash model
  let requests := raw.requests ++ [now]
  let token_entries := raw.tokens ++ [⟨now, tokens_used⟩]
  let rpd_before := if raw.last_rpd_reset ≠ today then 0 else raw.rpd_count
  let rpd_count := rpd_before + 1
  alistSet store (key_hash, model)
    { requests := requests
      tokens := token_entries
      rpd_count := rpd_count
      last_rpd_reset := today
      rpm_limit := ((MODEL_RATE_LIMITS model).map (fun l => l.rpm)).getD 0
      rpd_limit := ((MODEL_RATE_LIMITS model).map (fun l => l.rpd)).getD 0
      tpm_limit := ((MODEL_RATE_LIMITS model).map (fun l => l.tpm)).getD 0 }

/-- RateLimiter.cleanup_old_data: drop sliding-window entries at or before
now minus 60 seconds; a missing record is left untouched. -/
def cleanup_old_data (store : RateLimitStore) (key_hash model : String)
    (now : Int) : RateLimitStore :=
  match alistGet store (key_hash, model) with
  | none => store
  | some raw =>
    let cutoff := now - 60
    alistSet store (key_hash, model)
      { raw with
        requests := raw.requests.filter (fun ts => cutoff < ts)
        tokens := raw.tokens.filter (fun e => cutoff < e.ts) }

/-- RateLimiter.reset_rpd_all: zero the rpd_count field of every stored
record, returning the new store and the number of keys touched. -/
def reset_rpd_all (store : RateLimitStore) : RateLimitStore × Nat :=
  (store.map (fun p => (p.1, { p.2 with rpd_count := 0 })), store.length)

/-! ## Credential registry, from hydra.services.api_key_service -/

/-- Stored representation of one API key, from hydra.models.schemas.
Datetimes are abstracted to a Nat tick. -/
structure APIKeyEntry where
  email : String
  api_key_preview : String := ""
  project_id : String := ""
  last_validated : Nat := 0
  is_active : Bool := true
  health_score : Int := 100
  consecutive_errors : Nat := 0
  available_models : List String := []
  notes : String := ""
deriving Repr, DecidableEq

/-- Credential portion of the Redis keyspace: the apikeys hash keyed by
token hash. -/
abbrev KeyStore : Type := List (String × APIKeyEntry)

/-- APIKeyService.update_health: adjust the health score after a request
succeeds or fails, deactivating a key that reaches the consecutive-error
threshold and removing it from the active_keys set. -/
def update_health (keystore : KeyStore) (active_set : List String)
    (key_hash : String) (success : Bool) : KeyStore × List String :=
  match alistGet keystore key_hash with
  | none => (keystore, active_set)
  | some entry =>
    if success then
      let e := { entry with
        health_score := min HEALTH_SCORE_MAX (entry.health_score + HEALTH_SCORE_SUCCESS_DELTA)
        consecutive_errors := 0 }
      (alistSet keystore key_hash e, active_set)
    else
      let e := { entry with
        health_score := max 0 (entry.health_score + HEALTH_SCORE_FAILURE_DELTA)
        consecutive_errors := entry.consecutive_errors + 1 }
      if HEALTH_CONSECUTIVE_ERROR_DISABLE ≤ e.consecutive_errors then
        (alistSet keystore key_hash { e with is_active := false }, sremList active_set key_hash)
      else
        (alistSet keystore key_hash e, active_set)

/-- APIKeyService.add_api_key: hash, store and activate a key; when a record
already exists under the hash, merge by taking the union of the model lists,
refreshing the metadata and re-enabling the entry.  The SHA-256 hash is an
abstract parameter. -/
def add_api_key (hash_key : String → String) (keystore : KeyStore)
    (active_set : List String) (api_key email : String)
    (available_models : List String) (notes project_id : String) (now : Nat) :
    KeyStore × List String × String :=
  let kh := hash_key api_key
  match alistGet keystore kh with
  | some existing =>
    let merged_models := existing.available_models ∪ available_models
    let e := { existing with
      available_models := merged_models
      email := email
      project_id := if project_id ≠ "" then project_id else existing.project_id
      last_validated := now
      api_key_preview := "..." ++ api_key.takeRight 6
      notes := if notes ≠ "" then notes else existing.notes
      is_active := true }
    (alistSet keystore kh e, saddList active_set kh, kh)
  | none =>
    let entry : APIKeyEntry :=
      { email := email
        api_key_preview := "..." ++ api_key.takeRight 6
        project_id := project_id
        available_models := available_models
        notes := notes
        last_validated := now }
    (alistSet keystore kh entry, saddList active_set kh, kh)

/-- APIKeyService.update_models: replace the model list of a key entirely
when its set of models changed; return whether the entry was updated. -/
def update_models (keystore : KeyStore) (key_hash : String)
    (available_models : List String) (now : Nat) : KeyStore × Bool :=
  match alistGet keystore key_hash with
  | none => (keystore, false)
  | some entry =>
    if (∀ m ∈ entry.available_models, m ∈ available_models) ∧
       (∀ m ∈ available_models, m ∈ entry.available_models) then
      (keystore, false)
    else
      (alistSet keystore key_hash
        { entry with available_models := available_models, last_validated := now }, true)

/-! ## Router, from hydra.services.router_service

The RouterService object holds its APIKeyService and RateLimiter as
injected dependencies; the embedding therefore passes the active-key
listing and the two rate-limiter calls as explicit function arguments. -/

/-- Usage dictionary returned by RateLimiter.get_usage_stats. -/
structure UsageStats where
  rpm_used : Nat := 0
  rpm_limit : Nat := 0
  rpd_used : Nat := 0
  rpd_limit : Nat := 0
  tpm_used : Nat := 0
  tpm_limit : Nat := 0
deriving Repr, DecidableEq

/-- RouterService._score: weighted blend of the health score and the
remaining-capacity percentage.  Arithmetic is carried out over the
rationals. -/
def _score (health_weight capacity_weight : Rat) (health : Int)
    (usage : UsageStats) : Rat :=
  let rpm_pct := ((usage.rpm_used : Rat) / max (usage.rpm_limit : Rat) 1) * 100
  let rpd_pct := ((usage.rpd_used : Rat) / max (usage.rpd_limit : Rat) 1) * 100
  let tpm_pct := ((usage.tpm_used : Rat) / max (usage.tpm_limit : Rat) 1) * 100
  let capacity_score := 100 - (rpm_pct + rpd_pct + tpm_pct) / 3
  (health : Rat) * health_weight + capacity_score * capacity_weight

/-- Truthiness of an optional capability set, matching the Python
if required_capabilities guard, where the empty set is falsy. -/
def capsTruthy : Option (List String) → Bool
  | none => false
  | some caps => !caps.isEmpty

/-- RouterService._build_model_order: pick the base priority list from the
required capabilities and move a catalog-known preferred model to the
front. -/
def _build_model_order (preferred : Option String)
    (required_capabilities : Option (List String)) : List String :=
  let base :=
    if capsTruthy required_capabilities ∧
       CAP_IMAGE_GENERATION ∈ (required_capabilities.getD []) then
      IMAGE_MODEL_PRIORITY
    else if capsTruthy required_capabilities ∧
       CAP_EMBEDDING ∈ (required_capabilities.getD []) then
      [GEMINI_EMBEDDING]
    else
      MODEL_PRIORITY
  match preferred with
  | some p =>
    if p ≠ "" ∧ (MODEL_RATE_LIMITS p).isSome then
      p :: base.filter (fun m => m ≠ p)
    else base
  | none => base

/-- Credentials eligible for a model: active keys that advertise the model
and whose (handle, model) pair is not excluded. -/
def eligibleFor (active_keys : List (String × APIKeyEntry)) (model : String)
    (exclude : List (String × String)) : List (String × APIKeyEntry) :=
  active_keys.filter
    (fun p => decide (model ∈ p.2.available_models ∧ (p.1, model) ∉ exclude))

/-- Scored candidate list for one model: every eligible credential that
passes the rate-limit check, paired with its score, in eligibility order.
This is the scored list the source builds before sorting. -/
def scoredCandidates (active_keys : List (String × APIKeyEntry))
    (check : String → String → Bool) (usage : String → String → UsageStats)
    (health_weight capacity_weight : Rat) (model : String)
    (exclude : List (String × String)) : List (Rat × String) :=
  (eligibleFor active_keys model exclude).filterMap
    (fun p =>
      if check p.1 model then
        some (_score health_weight capacity_weight p.2.health_score (usage p.1 model), p.1)
      else none)

/-- Python tuple comparison on (score, handle) pairs: lexicographic, with
strings compared by their code-point sequences. -/
def pyLt (x y : Rat × String) : Prop :=
  x.1 < y.1 ∨ (x.1 = y.1 ∧ x.2.data < y.2.data)

instance (x y : Rat × String) : Decidable (pyLt x y) := by
  unfold pyLt
  infer_instance

/-- Maximum of a nonempty scored list under the Python tuple order,
mirroring scored.sort(reverse=True) followed by taking scored[0]. -/
def pickBestAux : Rat × String → List (Rat × String) → Rat × String
  | best, [] => best
  | best, x :: xs => pickBestAux (if pyLt best x then x else best) xs

/-- Head of the reverse-sorted scored list, or none when it is empty. -/
def pickBest : List (Rat × String) → Option (Rat × String)
  | [] => none
  | x :: xs => some (pickBestAux x xs)

/-- Routing result tuple (key_hash, model, email, api_key_preview). -/
structure RouteResult where
  key_hash : String
  model : String
  email : String
  api_key_preview : String
deriving Repr, DecidableEq

/-- Body of the per-model iteration of select_best_key_and_model: eligibility
filter, rate-limit filter with scoring, then the reverse-sorted pick and the
entry lookup of the winning hash. -/
def tryModel (active_keys : List (String × APIKeyEntry))
    (check : String → String → Bool) (usage : String → String → UsageStats)
    (health_weight capacity_weight : Rat) (model : String)
    (exclude : List (String × String)) : Option RouteResult :=
  let eligible := eligibleFor active_keys model exclude
  if eligible.isEmpty then none
  else
    let scored := scoredCandidates active_keys check usage
      health_weight capacity_weight model exclude
    match pickBest scored with
    | none => none
    | some (_, best_hash) =>
      match alistGet eligible best_hash with
      | some entry => some ⟨best_hash, model, entry.email, entry.api_key_preview⟩
      | none => none

/-- Iteration over the candidate model order: skip blocked models and models
missing a required capability, otherwise attempt the per-model selection. -/
def selectGo (active_keys : List (String × APIKeyEntry))
    (check : String → String → Bool) (usage : String → String → UsageStats)
    (health_weight capacity_weight : Rat)
    (required_capabilities : Option (List String))
    (exclude : List (String × String)) (blocked : List String) :
    List String → Option RouteResult
  | [] => none
  | model :: rest =>
    if model ∈ blocked then
      selectGo active_keys check usage health_weight capacity_weight
        required_capabilities exclude blocked rest
    else if capsTruthy required_capabilities ∧
        ¬ (∀ c ∈ required_capabilities.getD [], c ∈ MODEL_CAPABILITIES model) then
      selectGo active_keys check usage health_weight capacity_weight
        required_capabilities exclude blocked rest
    else
      match tryModel active_keys check usage health_weight capacity_weight
          model exclude with
      | some r => some r
      | none =>
        selectGo active_keys check usage health_weight capacity_weight
          required_capabilities exclude blocked rest

/-- RouterService.select_best_key_and_model: none models the
AllKeysExhaustedError path. -/
def select_best_key_and_model (active_keys : List (String × APIKeyEntry))
    (check : String → String → Bool) (usage : String → String → UsageStats)
    (health_weight capacity_weight : Rat) (preferred : Option String)
    (required_capabilities : Option (List String))
    (exclude : List (String × String)) (blocked : List String) :
    Option RouteResult :=
  let models_to_try := _build_model_order preferred required_capabilities
  if active_keys.isEmpty then none
  else
    selectGo active_keys check usage health_weight capacity_weight
      required_capabilities exclude blocked models_to_try

/-! ## Fallback executor, from _generate_with_fallback in hydra.api.routes.chat

The upstream Gemini client, the plaintext-key lookup and the wall clock are
modelled as an oracle indexed by the attempt number; the Redis-backed
credential state is threaded explicitly.  Each router selection is recorded
as one Attempt in a trace, including whether the iteration invoked
update_health and with which success flag. -/

/-- Outcome of one gemini_client.generate_content invocation: a successful
result, a GeminiAPIError with its upstream status code, or any other
exception (transport or unknown). -/
inductive GenOutcome where
  | success (total_tokens : Nat)
  | apiError (status_code : Nat)
  | transport
deriving Repr, DecidableEq

/-- Classified outcome of one loop iteration; noKey is the branch in which
the plaintext key is missing from Redis. -/
inductive AttemptOutcome where
  | success (total_tokens : Nat)
  | apiError (status_code : Nat)
  | transport
  | noKey
deriving Repr, DecidableEq

/-- Discriminator for the successful outcome. -/
def AttemptOutcome.isSuccess : AttemptOutcome → Bool
  | .success _ => true
  | _ => false

/-- One router selection inside a fallback run, together with its outcome
and the update_health call (if any) the iteration performed. -/
structure Attempt where
  attemptNo : Nat
  key_hash : String
  model : String
  outcome : AttemptOutcome
  healthAction : Option Bool
deriving Repr, DecidableEq

/-- Environment of one fallback run: the injected collaborators of
_generate_with_fallback.  raw_key models whether _plainkeys holds a
plaintext key for a hash; gen, check and usage are indexed by the attempt
number because wall-clock time advances between iterations. -/
structure FallbackEnv where
  raw_key : String → Bool
  gen : Nat → String → String → GenOutcome
  check : Nat → String → String → Bool
  usage : Nat → String → String → UsageStats
  health_weight : Rat
  capacity_weight : Rat
  preferred_model : Option String
  required_caps : Option (List String)

/-- Mutable state of one fallback run. -/
structure FallbackState where
  keystore : KeyStore
  active_set : List String
  failed_pairs : List (String × String)
  failed_models : List (String × Nat)
  blocked_models : List String
  total_attempts : Nat
  trace : List Attempt
  result : Option (String × String × Nat)
deriving Repr, DecidableEq

/-- Set-insertion into the failed_pairs exclusion set. -/
def paddPairs (l : List (String × String)) (p : String × String) :
    List (String × String) :=
  if p ∈ l then l else l ++ [p]

/-- Read of the failed_models counter dict with default 0. -/
def fmGet (l : List (String × Nat)) (model : String) : Nat :=
  (alistGet l model).getD 0

/-- One iteration of the _generate_with_fallback while loop; the Bool is
true when the iteration leaves the loop (router exhaustion breaks, a
successful generation returns).  Every branch matches one control path of
the source: a missing plaintext key excludes the pair, a success records
health and returns, a 429 counts toward model-wide blocking without a
health update, any other GeminiAPIError applies the credential-health
penalty, and a transport or unknown exception only excludes the pair. -/
def fallback_step (env : FallbackEnv) (s : FallbackState) : FallbackState × Bool :=
  let attempt := s.total_attempts + 1
  let s1 := { s with total_attempts := attempt }
  let active_keys := s1.keystore.filter (fun p => p.2.is_active)
  match select_best_key_and_model active_keys (env.check attempt) (env.usage attempt)
      env.health_weight env.capacity_weight env.preferred_model env.required_caps
      s1.failed_pairs s1.blocked_models with
  | none => (s1, true)
  | some r =>
    let kh := r.key_hash
    let model := r.model
    if env.raw_key kh then
      match env.gen attempt kh model with
      | .success tok =>
        let healthy := update_health s1.keystore s1.active_set kh true
        ({ s1 with
           keystore := healthy.1
           active_set := healthy.2
           trace := s1.trace ++ [⟨attempt, kh, model, .success tok, some true⟩]
           result := some (kh, model, tok) }, true)
      | .apiError status =>
        let fp := paddPairs s1.failed_pairs (kh, model)
        if status = 429 then
          let cnt := fmGet s1.failed_models model + 1
          let fm := alistSet s1.failed_models model cnt
          let bm := if 2 ≤ cnt then saddList s1.blocked_models model
                    else s1.blocked_models
          ({ s1 with
             failed_pairs := fp
             failed_models := fm
             blocked_models := bm
             trace := s1.trace ++ [⟨attempt, kh, model, .apiError status, none⟩] }, false)
        else
          let healthy := update_health s1.keystore s1.active_set kh false
          ({ s1 with
             keystore := healthy.1
             active_set := healthy.2
             failed_pairs := fp
             trace := s1.trace ++ [⟨attempt, kh, model, .apiError status, some false⟩] }, false)
      | .transport =>
        ({ s1 with
           failed_pairs := paddPairs s1.failed_pairs (kh, model)
           trace := s1.trace ++ [⟨attempt, kh, model, .transport, none⟩] }, false)
    else
      ({ s1 with
         failed_pairs := paddPairs s1.failed_pairs (kh, model)
         trace := s1.trace ++ [⟨attempt, kh, model, .noKey, none⟩] }, false)

/-- While loop of _generate_with_fallback, recursing on the remaining
attempt budget. -/
def fallback_loop (env : FallbackEnv) : Nat → FallbackState → FallbackState
  | 0, s => s
  | fuel + 1, s =>
    match fallback_step env s with
    | (s2, true) => s2
    | (s2, false) => fallback_loop env fuel s2

/-- Attempt cap of _generate_with_fallback. -/
def MAX_ATTEMPTS : Nat := 20

/-- Initial run state: empty exclusion sets, zero attempts. -/
def initialFallbackState (keystore : KeyStore) (active_set : List String) :
    FallbackState :=
  { keystore := keystore
    active_set := active_set
    failed_pairs := []
    failed_models := []
    blocked_models := []
    total_attempts := 0
    trace := []
    result := none }

/-- Whole fallback run of _generate_with_fallback over a request. -/
def _generate_with_fallback (env : FallbackEnv) (keystore : KeyStore)
    (active_set : List String) : FallbackState :=
  fallback_loop env MAX_ATTEMPTS (initialFallbackState keystore active_set)

/-- Number of attempts in a trace that failed with upstream status 429 on a
given model. -/
def count429 (l : List Attempt) (model : String) : Nat :=
  l.countP (fun a => decide (a.model = model ∧ a.outcome = .apiError 429))

/-! ## Specification-side definition for the check ordering claim -/

/-- Modelled from the spec wording for the check operation: compute the
three window quantities up front — the count of request timestamps strictly
newer than now minus 60, the daily counter read as zero on a date-stamp
mismatch, and the sum of token counts strictly newer than now minus 60 —
then test the limits in the order RPM, RPD, TPM, reporting the first
exceeded limit as the blocking reason, with the TPM test blocking when
current tokens plus estimated tokens strictly exceed the limit. -/
def check_rate_limit_spec (store : RateLimitStore) (key_hash model : String)
    (estimated_tokens : Nat) (now : Int) (today : String) : Bool × Option String :=
  match MODEL_RATE_LIMITS model with
  | none => (false, some (unknownModelReason model))
  | some limits =>
    let raw := getRateRecord store key_hash model
    let rpm_window_count := (raw.requests.filter (fun ts => now - 60 < ts)).length
    let rpd_effective := if raw.last_rpd_reset = today then raw.rpd_count else 0
    let tpm_window_sum :=
      ((raw.tokens.filter (fun e => now - 60 < e.ts)).map (fun e => e.count)).sum
    if rpm_window_count ≥ limits.rpm then (false, some (rpmReason limits.rpm))
    else if rpd_effective ≥ limits.rpd then (false, some (rpdReason limits.rpd))
    else if tpm_window_sum + estimated_tokens > limits.tpm then
      (false, some (tpmReason limits.tpm))
    else (true, none)

/-! ## Concrete fixtures used by the witness and counterexample theorems -/

/-- Rate-limit check stub that always allows. -/
def chkAll : String → String → Bool := fun _ _ => true

/-- Usage stub reporting an idle key. -/
def usgZero : String → String → UsageStats := fun _ _ => {}

/-- Credential fixture advertising the pro model only. -/
def entryProOnly : APIKeyEntry :=
  { email := "a@ex", api_key_preview := "...aaaaaa",
    available_models := [GEMINI_25_PRO] }

/-- Credential fixture advertising the pro and flash models. -/
def entryProFlash : APIKeyEntry :=
  { email := "b@ex", api_key_preview := "...bbbbbb",
    available_models := [GEMINI_25_PRO, GEMINI_25_FLASH] }

/-- Rate-check schedule that admits exactly one credential per attempt, so
a single candidate is scored on every selection: credential a on attempt 1,
credential b on attempt 2, credential a again afterwards. -/
def singleCandidateCheck : Nat → String → String → Bool :=
  fun n kh _ =>
    if n = 1 then kh = "a"
    else if n = 2 then kh = "b"
    else kh = "a"

/-- Environment for the model-wide blocking scenario: the first two
attempts fail with 429, any later generation succeeds. -/
def envBlock : FallbackEnv :=
  { raw_key := fun _ => true
    gen := fun n _ _ => if n ≤ 2 then .apiError 429 else .success 150
    check := singleCandidateCheck
    usage := fun _ _ _ => {}
    health_weight := (4 : Rat)/10
    capacity_weight := (6 : Rat)/10
    preferred_model := some GEMINI_25_PRO
    required_caps := none }

/-- Two-credential keystore for the blocking scenario. -/
def ksBlock : KeyStore := [("a", entryProFlash), ("b", entryProFlash)]

/-- Environment for the bounded-attempts scenario, identical in behavior to
the blocking environment but used by the invariants claim. -/
def envBound : FallbackEnv :=
  { raw_key := fun _ => true
    gen := fun n _ _ => if n ≤ 2 then .apiError 429 else .success 150
    check := singleCandidateCheck
    usage := fun _ _ _ => {}
    health_weight := (4 : Rat)/10
    capacity_weight := (6 : Rat)/10
    preferred_model := some GEMINI_25_PRO
    required_caps := none }

/-- Two-credential keystore for the bounded-attempts scenario. -/
def ksBound : KeyStore := [("a", entryProFlash), ("b", entryProFlash)]

/-- Credential fixture with a mid-range health score. -/
def entryHealth50 : APIKeyEntry :=
  { email := "k@ex", health_score := 50, available_models := [GEMINI_25_PRO] }

/-- Environment in which every generation raises a transport exception. -/
def envTransport : FallbackEnv :=
  { raw_key := fun _ => true
    gen := fun _ _ _ => .transport
    check := fun _ _ _ => true
    usage := fun _ _ _ => {}
    health_weight := (4 : Rat)/10
    capacity_weight := (6 : Rat)/10
    preferred_model := some GEMINI_25_PRO
    required_caps := none }

/-- Single-credential keystore for the transport scenario. -/
def ksTransport : KeyStore := [("k1", entryHealth50)]

/-- Credential fixture one failure away from deactivation. -/
def entryFourErrors : APIKeyEntry :=
  { email := "e@ex", health_score := 40, consecutive_errors := 4,
    available_models := [GEMINI_25_FLASH] }

/-- Rate-window fixture from a previous quota day with a saturated daily
counter and stale sliding windows. -/
def staleRecord : RateLimitRecord :=
  { requests := [10, 50]
    tokens := [⟨10, 300⟩, ⟨50, 200⟩]
    rpd_count := 100
    last_rpd_reset := "2026-02-01"
    rpm_limit := 5
    rpd_limit := 100
    tpm_limit := 250000 }

/-- Rate-limit store fixture holding the stale record for the pro model
and an unrelated flash record. -/
def staleStore : RateLimitStore :=
  [((("h1" : String), GEMINI_25_PRO), staleRecord),
   ((("h2" : String), GEMINI_25_FLASH),
    { requests := [100], tokens := [⟨100, 42⟩], rpd_count := 7,
      last_rpd_reset := "2026-02-02", rpm_limit := 15, rpd_limit := 1500,
      tpm_limit := 1000000 })]

/-- Identity-tagged stand-in for the SHA-256 token hash. -/
def hashFixture : String → String := fun s => "sha-" ++ s

/-- Existing stored credential for the merge scenario: one model, reduced
health and a disabled flag. -/
def entryMergeOld : APIKeyEntry :=
  { email := "old@ex", api_key_preview := "...oldkey", project_id := "proj-1",
    is_active := false, health_score := 55, consecutive_errors := 2,
    available_models := [GEMINI_25_PRO], notes := "old note" }

/-- Keystore fixture for the merge scenario: the hash of key-abc123 is
already present. -/
def ksMerge : KeyStore := [("sha-key-abc123", entryMergeOld)]

/-! ## Association-list lemmas -/

theorem alistGet_set_self {κ α : Type} [DecidableEq κ] (l : List (κ × α)) (k : κ) (v : α) :
    alistGet (alistSet l k v) k = some v := by
  induction l with
  | nil => simp [alistSet, alistGet]
  | cons h t ih =>
    obtain ⟨k0, v0⟩ := h
    by_cases hk : k0 = k
    · subst hk; simp [alistSet, alistGet]
    · simp [alistSet, alistGet, hk, ih]

theorem alistGet_set_ne {κ α : Type} [DecidableEq κ] (l : List (κ × α)) (k k2 : κ) (v : α)
    (h : k ≠ k2) : alistGet (alistSet l k v) k2 = alistGet l k2 := by
  induction l with
  | nil => simp [alistSet, alistGet, h]
  | cons h0 t ih =>
    obtain ⟨k0, v0⟩ := h0
    by_cases hk : k0 = k
    · subst hk; simp [alistSet, alistGet, h]
    · by_cases hk2 : k0 = k2
      · subst hk2; simp [alistSet, alistGet, hk]
      · simp [alistSet, alistGet, hk, hk2, ih]

theorem mem_saddList {α : Type} [DecidableEq α] (s : List α) (x y : α) :
    y ∈ saddList s x ↔ y ∈ s ∨ y = x := by
  unfold saddList
  by_cases h : x ∈ s
  · simp only [if_pos h]
    constructor
    · exact Or.inl
    · rintro (hy | rfl) <;> [exact hy; exact h]
  · simp [if_neg h]

theorem not_mem_sremList {α : Type} [DecidableEq α] (s : List α) (x : α) :
    x ∉ sremList s x := by
  simp [sremList, List.mem_filter]

theorem mem_paddPairs (l : List (String × String)) (p q : String × String) :
    q ∈ paddPairs l p ↔ q ∈ l ∨ q = p := by
  unfold paddPairs
  by_cases h : p ∈ l
  · simp only [if_pos h]
    constructor
    · exact Or.inl
    · rintro (hy | rfl) <;> [exact hy; exact h]
  · simp [if_neg h]

theorem paddPairs_subset (l : List (String × String)) (p : String × String) :
    l ⊆ paddPairs l p := by
  intro q hq
  exact (mem_paddPairs l p q).mpr (Or.inl hq)

theorem mem_paddPairs_self (l : List (String × String)) (p : String × String) :
    p ∈ paddPairs l p :=
  (mem_paddPairs l p p).mpr (Or.inr rfl)

/-! ## Reverse-sort pick lemmas -/

theorem pyLt_iff_lex (x y : Rat × String) : pyLt x y ↔ toLex x < toLex y := by
  rw [Prod.Lex.lt_iff]
  unfold pyLt
  refine or_congr Iff.rfl (and_congr Iff.rfl ?_)
  exact (String.lt_iff_toList_lt).symm

theorem pickBestAux_mem (b : Rat × String) (l : List (Rat × String)) :
    pickBestAux b l = b ∨ pickBestAux b l ∈ l := by
  induction l generalizing b with
  | nil => exact Or.inl rfl
  | cons x xs ih =>
    simp only [pickBestAux]
    by_cases h : pyLt b x
    · simp only [if_pos h]
      rcases ih x with h2 | h2
      · exact Or.inr (by simp [h2])
      · exact Or.inr (List.mem_cons_of_mem _ h2)
    · simp only [if_neg h]
      rcases ih b with h2 | h2
      · exact Or.inl h2
      · exact Or.inr (List.mem_cons_of_mem _ h2)

theorem pickBestAux_not_lt (l : List (Rat × String)) (b : Rat × String) :
    ∀ x, (x = b ∨ x ∈ l) → ¬ toLex (pickBestAux b l) < toLex x := by
  induction l generalizing b with
  | nil =>
    rintro x (rfl | hx)
    · exact lt_irrefl _
    · simp at hx
  | cons y ys ih =>
    intro x hx
    simp only [pickBestAux]
    have hb2 : toLex b ≤ toLex (if pyLt b y then y else b) := by
      by_cases h : pyLt b y
      · simp only [if_pos h]; exact le_of_lt ((pyLt_iff_lex b y).mp h)
      · simp only [if_neg h]; exact le_refl _
    have hy2 : toLex y ≤ toLex (if pyLt b y then y else b) := by
      by_cases h : pyLt b y
      · simp only [if_pos h]; exact le_refl _
      · simp only [if_neg h]
        exact le_of_not_lt (fun hlt => h ((pyLt_iff_lex b y).mpr hlt))
    have hres : toLex (if pyLt b y then y else b) ≤
        toLex (pickBestAux (if pyLt b y then y else b) ys) :=
      le_of_not_lt (ih _ _ (Or.inl rfl))
    rcases hx with rfl | hx
    · exact not_lt_of_ge (le_trans hb2 hres)
    · rcases List.mem_cons.mp hx with rfl | hx
      · exact not_lt_of_ge (le_trans hy2 hres)
      · exact ih _ _ (Or.inr hx)

theorem pickBest_mem {l : List (Rat × String)} {x : Rat × String}
    (h : pickBest l = some x) : x ∈ l := by
  cases l with
  | nil => simp [pickBest] at h
  | cons y ys =>
    simp only [pickBest, Option.some.injEq] at h
    subst h
    rcases pickBestAux_mem y ys with h2 | h2
    · simp [h2]
    · exact List.mem_cons_of_mem _ h2

theorem pickBest_not_lt {l : List (Rat × String)} {x : Rat × String}
    (h : pickBest l = some x) : ∀ y ∈ l, ¬ toLex x < toLex y := by
  cases l with
  | nil => simp [pickBest] at h
  | cons z zs =>
    simp only [pickBest, Option.some.injEq] at h
    subst h
    intro y hy
    rcases List.mem_cons.mp hy with rfl | hy
    · exact pickBestAux_not_lt zs y y (Or.inl rfl)
    · exact pickBestAux_not_lt zs z y (Or.inr hy)

/-! ## Router lemmas -/

theorem mem_eligibleFor {active_keys : List (String × APIKeyEntry)} {model : String}
    {exclude : List (String × String)} {p : String × APIKeyEntry} :
    p ∈ eligibleFor active_keys model exclude ↔
      p ∈ active_keys ∧ model ∈ p.2.available_models ∧ (p.1, model) ∉ exclude := by
  simp [eligibleFor, List.mem_filter, and_assoc]

theorem scoredCandidates_handle {active_keys : List (String × APIKeyEntry)}
    {check : String → String → Bool} {usage : String → String → UsageStats}
    {hw cw : Rat} {model : String} {exclude : List (String × String)}
    {x : Rat × String}
    (hx : x ∈ scoredCandidates active_keys check usage hw cw model exclude) :
    ∃ e, (x.2, e) ∈ eligibleFor active_keys model exclude := by
  simp only [scoredCandidates, List.mem_filterMap] at hx
  obtain ⟨p, hp, hf⟩ := hx
  by_cases hc : check p.1 model
  · rw [if_pos hc] at hf
    obtain rfl := Option.some.inj hf
    exact ⟨p.2, hp⟩
  · rw [if_neg hc] at hf
    exact absurd hf (by simp)

theorem tryModel_spec {active_keys : List (String × APIKeyEntry)}
    {check : String → String → Bool} {usage : String → String → UsageStats}
    {hw cw : Rat} {model : String} {exclude : List (String × String)}
    {r : RouteResult}
    (h : tryModel active_keys check usage hw cw model exclude = some r) :
    r.model = model ∧
    ∃ s, pickBest (scoredCandidates active_keys check usage hw cw model exclude) =
      some (s, r.key_hash) := by
  simp only [tryModel] at h
  split at h
  · exact absurd h (by simp)
  · split at h
    · exact absurd h (by simp)
    · rename_i sc best_hash heq
      split at h
      · rename_i entry hget
        obtain rfl := Option.some.inj h
        exact ⟨rfl, sc, heq⟩
      · exact absurd h (by simp)

theorem tryModel_not_excluded {active_keys : List (String × APIKeyEntry)}
    {check : String → String → Bool} {usage : String → String → UsageStats}
    {hw cw : Rat} {model : String} {exclude : List (String × String)}
    {r : RouteResult}
    (h : tryModel active_keys check usage hw cw model exclude = some r) :
    (r.key_hash, r.model) ∉ exclude := by
  obtain ⟨hm, s, hpb⟩ := tryModel_spec h
  have hmem := pickBest_mem hpb
  obtain ⟨e, he⟩ := scoredCandidates_handle hmem
  rw [hm]
  exact (mem_eligibleFor.mp he).2.2

theorem selectGo_spec {active_keys : List (String × APIKeyEntry)}
    {check : String → String → Bool} {usage : String → String → UsageStats}
    {hw cw : Rat} {caps : Option (List String)}
    {exclude : List (String × String)} {blocked : List String}
    {models : List String} {r : RouteResult}
    (h : selectGo active_keys check usage hw cw caps exclude blocked models = some r) :
    r.model ∉ blocked ∧ (r.key_hash, r.model) ∉ exclude := by
  induction models with
  | nil => exact absurd h (by simp [selectGo])
  | cons m ms ih =>
    rw [selectGo] at h
    by_cases hb : m ∈ blocked
    · rw [if_pos hb] at h; exact ih h
    · rw [if_neg hb] at h
      by_cases hc : capsTruthy caps = true ∧
          ¬∀ c ∈ caps.getD [], c ∈ MODEL_CAPABILITIES m
      · rw [if_pos hc] at h; exact ih h
      · rw [if_neg hc] at h
        cases htm : tryModel active_keys check usage hw cw m exclude with
        | some r0 =>
          rw [htm] at h
          obtain rfl := Option.some.inj h
          have hm := (tryModel_spec htm).1
          refine ⟨?_, tryModel_not_excluded htm⟩
          rw [hm]
          exact hb
        | none =>
          rw [htm] at h
          exact ih h

theorem select_best_spec {active_keys : List (String × APIKeyEntry)}
    {check : String → String → Bool} {usage : String → String → UsageStats}
    {hw cw : Rat} {preferred : Option String} {caps : Option (List String)}
    {exclude : List (String × String)} {blocked : List String} {r : RouteResult}
    (h : select_best_key_and_model active_keys check usage hw cw preferred caps
      exclude blocked = some r) :
    r.model ∉ blocked ∧ (r.key_hash, r.model) ∉ exclude := by
  simp only [select_best_key_and_model] at h
  split at h
  · exact absurd h (by simp)
  · exact selectGo_spec h

/-! ## Counting lemmas for 429 failures -/

theorem count429_append_429 (l : List Attempt) (a : Attempt) (M : String)
    (ha : a.outcome = .apiError 429) :
    count429 (l ++ [a]) M = count429 l M + (if a.model = M then 1 else 0) := by
  unfold count429
  rw [List.countP_append]
  by_cases hm : a.model = M <;> simp [List.countP_cons, ha, hm]

theorem count429_append_other (l : List Attempt) (a : Attempt) (M : String)
    (ha : a.outcome ≠ .apiError 429) :
    count429 (l ++ [a]) M = count429 l M := by
  unfold count429
  rw [List.countP_append]
  simp [List.countP_cons, ha]

theorem countP_two_lt {α : Type} (l : List α) (p : α → Bool) :
    ∀ (i j : Nat) (a b : α), i < j → l[i]? = some a → l[j]? = some b →
      p a = true → p b = true → 2 ≤ l.countP p := by
  induction l with
  | nil => intro i j a b _ hi _ _ _; simp at hi
  | cons x t ih =>
    intro i j a b hij hi hj hpa hpb
    cases i with
    | zero =>
      obtain rfl : x = a := by simpa using hi
      obtain ⟨j2, rfl⟩ : ∃ j2, j = j2 + 1 := ⟨j - 1, by omega⟩
      have hjt : t[j2]? = some b := by simpa using hj
      have hbt : b ∈ t := List.getElem?_mem hjt
      have hpos : 0 < t.countP p := List.countP_pos_iff.mpr ⟨b, hbt, hpb⟩
      rw [List.countP_cons, hpa]
      simp only [if_true]
      omega
    | succ i2 =>
      obtain ⟨j2, rfl⟩ : ∃ j2, j = j2 + 1 := ⟨j - 1, by omega⟩
      have hit : t[i2]? = some a := by simpa using hi
      have hjt : t[j2]? = some b := by simpa using hj
      have := ih i2 j2 a b (by omega) hit hjt hpa hpb
      rw [List.countP_cons]
      omega

theorem countP_two {α : Type} (l : List α) (p : α → Bool) (i j : Nat) (a b : α)
    (hij : i ≠ j) (hi : l[i]? = some a) (hj : l[j]? = some b)
    (hpa : p a = true) (hpb : p b = true) : 2 ≤ l.countP p := by
  rcases Nat.lt_or_ge i j with h | h
  · exact countP_two_lt l p i j a b h hi hj hpa hpb
  · have h2 : j < i := by omega
    exact countP_two_lt l p j i b a h2 hj hi hpb hpa

/-! ## Single-step characterization of the fallback loop -/

theorem fallback_step_cases (env : FallbackEnv) (s s2 : FallbackState) (stop : Bool)
    (h : fallback_step env s = (s2, stop)) :
    s2.total_attempts = s.total_attempts + 1 ∧
    ( (s2 = { s with total_attempts := s.total_attempts + 1 } ∧ stop = true)
    ∨ ∃ a : Attempt,
        s2.trace = s.trace ++ [a] ∧
        a.model ∉ s.blocked_models ∧
        (a.key_hash, a.model) ∉ s.failed_pairs ∧
        ( (stop = true ∧ a.healthAction = some true ∧
            (∃ tok, a.outcome = .success tok) ∧
            s2.failed_pairs = s.failed_pairs ∧
            s2.failed_models = s.failed_models ∧
            s2.blocked_models = s.blocked_models)
        ∨ (stop = false ∧ a.outcome = .apiError 429 ∧ a.healthAction = none ∧
            s2.keystore = s.keystore ∧
            s2.active_set = s.active_set ∧
            s2.failed_pairs = paddPairs s.failed_pairs (a.key_hash, a.model) ∧
            s2.failed_models =
              alistSet s.failed_models a.model (fmGet s.failed_models a.model + 1) ∧
            s2.blocked_models =
              (if 2 ≤ fmGet s.failed_models a.model + 1
               then saddList s.blocked_models a.model else s.blocked_models))
        ∨ (stop = false ∧ (∃ st, a.outcome = .apiError st ∧ st ≠ 429) ∧
            a.healthAction = some false ∧
            s2.failed_pairs = paddPairs s.failed_pairs (a.key_hash, a.model) ∧
            s2.failed_models = s.failed_models ∧
            s2.blocked_models = s.blocked_models)
        ∨ (stop = false ∧ (a.outcome = .transport ∨ a.outcome = .noKey) ∧
            a.healthAction = none ∧
            s2.keystore = s.keystore ∧
            s2.active_set = s.active_set ∧
            s2.failed_pairs = paddPairs s.failed_pairs (a.key_hash, a.model) ∧
            s2.failed_models = s.failed_models ∧
            s2.blocked_models = s.blocked_models))) := by
  unfold fallback_step at h
  simp only [] at h
  split at h
  case _ =>
    injection h with h1 h2
    subst h1; subst h2
    exact ⟨rfl, Or.inl ⟨rfl, rfl⟩⟩
  case _ r hsel =>
    have hspec := select_best_spec hsel
    by_cases hraw : env.raw_key r.key_hash = true
    · rw [if_pos hraw] at h
      split at h
      · injection h with h1 h2
        subst h1; subst h2
        exact ⟨rfl, Or.inr ⟨_, rfl, hspec.1, hspec.2,
          Or.inl ⟨rfl, rfl, ⟨_, rfl⟩, rfl, rfl, rfl⟩⟩⟩
      · rename_i status hgen
        split at h
        · rename_i hst
          subst hst
          injection h with h1 h2
          subst h1; subst h2
          exact ⟨rfl, Or.inr ⟨_, rfl, hspec.1, hspec.2,
            Or.inr (Or.inl ⟨rfl, rfl, rfl, rfl, rfl, rfl, rfl, rfl⟩)⟩⟩
        · rename_i hst
          injection h with h1 h2
          subst h1; subst h2
          exact ⟨rfl, Or.inr ⟨_, rfl, hspec.1, hspec.2,
            Or.inr (Or.inr (Or.inl ⟨rfl, ⟨status, rfl, hst⟩, rfl, rfl, rfl, rfl⟩))⟩⟩
      · injection h with h1 h2
        subst h1; subst h2
        exact ⟨rfl, Or.inr ⟨_, rfl, hspec.1, hspec.2,
          Or.inr (Or.inr (Or.inr ⟨rfl, Or.inl rfl, rfl, rfl, rfl, rfl, rfl, rfl⟩))⟩⟩
    · rw [if_neg hraw] at h
      injection h with h1 h2
      subst h1; subst h2
      exact ⟨rfl, Or.inr ⟨_, rfl, hspec.1, hspec.2,
        Or.inr (Or.inr (Or.inr ⟨rfl, Or.inr rfl, rfl, rfl, rfl, rfl, rfl, rfl⟩))⟩⟩

/-! ## Loop-level lemmas -/

theorem fallback_loop_attempts (env : FallbackEnv) :
    ∀ (fuel : Nat) (s : FallbackState),
      (fallback_loop env fuel s).total_attempts ≤ s.total_attempts + fuel := by
  intro fuel
  induction fuel with
  | zero => intro s; simp [fallback_loop]
  | succ n ih =>
    intro s
    rw [fallback_loop]
    rcases hstep : fallback_step env s with ⟨s2, stop⟩
    obtain ⟨hatt, _⟩ := fallback_step_cases env s s2 stop hstep
    cases stop
    · have := ih s2
      simp only []
      omega
    · simp only []
      omega

theorem fallback_loop_trace_extends (env : FallbackEnv) :
    ∀ (fuel : Nat) (s : FallbackState),
      ∃ t, (fallback_loop env fuel s).trace = s.trace ++ t := by
  intro fuel
  induction fuel with
  | zero => intro s; exact ⟨[], by simp [fallback_loop]⟩
  | succ n ih =>
    intro s
    rw [fallback_loop]
    rcases hstep : fallback_step env s with ⟨s2, stop⟩
    obtain ⟨-, hcases⟩ := fallback_step_cases env s s2 stop hstep
    have htr : ∃ u, s2.trace = s.trace ++ u := by
      rcases hcases with ⟨rfl, -⟩ | ⟨a, ha, -⟩
      · exact ⟨[], by simp⟩
      · exact ⟨[a], ha⟩
    obtain ⟨u, hu⟩ := htr
    cases stop
    · obtain ⟨t2, ht2⟩ := ih s2
      exact ⟨u ++ t2, by simp only []; rw [ht2, hu, List.append_assoc]⟩
    · exact ⟨u, by simp only []; exact hu⟩

theorem fallback_loop_pairs_mono (env : FallbackEnv) :
    ∀ (fuel : Nat) (s : FallbackState),
      s.failed_pairs ⊆ (fallback_loop env fuel s).failed_pairs := by
  intro fuel
  induction fuel with
  | zero => intro s; simp [fallback_loop]
  | succ n ih =>
    intro s
    rw [fallback_loop]
    rcases hstep : fallback_step env s with ⟨s2, stop⟩
    obtain ⟨-, hcases⟩ := fallback_step_cases env s s2 stop hstep
    have hsub : s.failed_pairs ⊆ s2.failed_pairs := by
      rcases hcases with ⟨rfl, -⟩ | ⟨a, -, -, -, hbr⟩
      · exact fun q hq => hq
      · rcases hbr with ⟨-, -, -, hfp, -⟩ | ⟨-, -, -, -, -, hfp, -⟩ |
          ⟨-, -, -, hfp, -⟩ | ⟨-, -, -, -, -, hfp, -⟩ <;>
          rw [hfp]
        · exact fun q hq => hq
        · exact paddPairs_subset _ _
        · exact paddPairs_subset _ _
        · exact paddPairs_subset _ _
    cases stop
    · exact fun q hq => ih s2 (hsub hq)
    · exact hsub

theorem fallback_loop_failed_in (env : FallbackEnv) :
    ∀ (fuel : Nat) (s : FallbackState),
      (∀ a ∈ s.trace, a.outcome.isSuccess = false →
        (a.key_hash, a.model) ∈ s.failed_pairs) →
      ∀ a ∈ (fallback_loop env fuel s).trace, a.outcome.isSuccess = false →
        (a.key_hash, a.model) ∈ (fallback_loop env fuel s).failed_pairs := by
  intro fuel
  induction fuel with
  | zero => intro s hInv; simpa [fallback_loop] using hInv
  | succ n ih =>
    intro s hInv
    rw [fallback_loop]
    rcases hstep : fallback_step env s with ⟨s2, stop⟩
    obtain ⟨-, hcases⟩ := fallback_step_cases env s s2 stop hstep
    have hInv2 : ∀ a ∈ s2.trace, a.outcome.isSuccess = false →
        (a.key_hash, a.model) ∈ s2.failed_pairs := by
      rcases hcases with ⟨rfl, -⟩ | ⟨a, ha, -, -, hbr⟩
      · exact hInv
      · intro b hb hbfail
        rw [ha] at hb
        rcases List.mem_append.mp hb with hb | hb
        · rcases hbr with ⟨-, -, -, hfp, -⟩ | ⟨-, -, -, -, -, hfp, -⟩ |
            ⟨-, -, -, hfp, -⟩ | ⟨-, -, -, -, -, hfp, -⟩ <;> rw [hfp]
          · exact hInv b hb hbfail
          · exact paddPairs_subset _ _ (hInv b hb hbfail)
          · exact paddPairs_subset _ _ (hInv b hb hbfail)
          · exact paddPairs_subset _ _ (hInv b hb hbfail)
        · obtain rfl : b = a := by simpa using hb
          rcases hbr with ⟨-, -, ⟨tok, hout⟩, -⟩ | ⟨-, -, -, -, -, hfp, -⟩ |
            ⟨-, -, -, hfp, -⟩ | ⟨-, -, -, -, -, hfp, -⟩
          · rw [hout] at hbfail; simp [AttemptOutcome.isSuccess] at hbfail
          · rw [hfp]; exact mem_paddPairs_self _ _
          · rw [hfp]; exact mem_paddPairs_self _ _
          · rw [hfp]; exact mem_paddPairs_self _ _
    cases stop
    · exact ih s2 hInv2
    · exact hInv2

theorem fallback_loop_pairwise (env : FallbackEnv) :
    ∀ (fuel : Nat) (s : FallbackState),
      (∀ a ∈ s.trace, (a.key_hash, a.model) ∈ s.failed_pairs) →
      (s.trace.map (fun a => (a.key_hash, a.model))).Pairwise (fun p q => p ≠ q) →
      ((fallback_loop env fuel s).trace.map
        (fun a => (a.key_hash, a.model))).Pairwise (fun p q => p ≠ q) := by
  intro fuel
  induction fuel with
  | zero => intro s _ hpw; simpa [fallback_loop] using hpw
  | succ n ih =>
    intro s hInv hpw
    rw [fallback_loop]
    rcases hstep : fallback_step env s with ⟨s2, stop⟩
    obtain ⟨-, hcases⟩ := fallback_step_cases env s s2 stop hstep
    rcases hcases with ⟨rfl, -⟩ | ⟨a, ha, -, hnotfp, hbr⟩
    · cases stop
      · exact ih _ hInv hpw
      · exact hpw
    · have hpw2 : (s2.trace.map (fun a => (a.key_hash, a.model))).Pairwise
          (fun p q => p ≠ q) := by
        rw [ha, List.map_append, List.pairwise_append]
        refine ⟨hpw, by simp, ?_⟩
        intro x hx y hy
        simp only [List.map_cons, List.map_nil, List.mem_singleton] at hy
        subst hy
        obtain ⟨b, hb, rfl⟩ := List.mem_map.mp hx
        intro hcontra
        apply hnotfp
        rw [← hcontra]
        exact hInv b hb
      cases stop
      · have hInv2 : ∀ b ∈ s2.trace, (b.key_hash, b.model) ∈ s2.failed_pairs := by
          intro b hb
          rw [ha] at hb
          rcases hbr with ⟨hstop, -⟩ | ⟨-, -, -, -, -, hfp, -⟩ |
            ⟨-, -, -, hfp, -⟩ | ⟨-, -, -, -, -, hfp, -⟩
          · exact absurd hstop (by simp)
          all_goals
            rw [hfp]
            rcases List.mem_append.mp hb with hb | hb
            · exact paddPairs_subset _ _ (hInv b hb)
            · obtain rfl : b = a := by simpa using hb
              exact mem_paddPairs_self _ _
        exact ih s2 hInv2 hpw2
      · exact hpw2

theorem fallback_loop_attempt_pred (env : FallbackEnv) (P : Attempt → Prop)
    (hP : ∀ (s s2 : FallbackState) (stop : Bool) (a : Attempt),
      fallback_step env s = (s2, stop) → s2.trace = s.trace ++ [a] → P a) :
    ∀ (fuel : Nat) (s : FallbackState),
      (∀ a ∈ s.trace, P a) → ∀ a ∈ (fallback_loop env fuel s).trace, P a := by
  intro fuel
  induction fuel with
  | zero => intro s h; simpa [fallback_loop] using h
  | succ n ih =>
    intro s h
    rw [fallback_loop]
    rcases hstep : fallback_step env s with ⟨s2, stop⟩
    obtain ⟨-, hcases⟩ := fallback_step_cases env s s2 stop hstep
    have h2 : ∀ a ∈ s2.trace, P a := by
      rcases hcases with ⟨rfl, -⟩ | ⟨a, ha, -⟩
      · exact h
      · intro b hb
        rw [ha] at hb
        rcases List.mem_append.mp hb with hb | hb
        · exact h b hb
        · obtain rfl : b = a := by simpa using hb
          exact hP s s2 stop _ hstep ha
    cases stop
    · exact ih _ h2
    · exact h2

theorem fallback_step_health429 (env : FallbackEnv) (s s2 : FallbackState)
    (stop : Bool) (a : Attempt) (hstep : fallback_step env s = (s2, stop))
    (ha : s2.trace = s.trace ++ [a]) :
    (a.outcome = .apiError 429 → a.healthAction = none) ∧
    (a.outcome = .transport → a.healthAction = none) := by
  obtain ⟨-, hcases⟩ := fallback_step_cases env s s2 stop hstep
  rcases hcases with ⟨rfl, -⟩ | ⟨b, hb, -, -, hbr⟩
  · exact absurd (congrArg List.length ha) (by simp)
  · have hba : b = a := by
      have := hb.symm.trans ha
      simpa using this
    subst hba
    rcases hbr with ⟨-, -, ⟨tok, hout⟩, -⟩ | ⟨-, hout, hha, -⟩ |
      ⟨-, ⟨st, hout, hne⟩, -, -⟩ | ⟨-, hout2, hha, -⟩
    · rw [hout]
      constructor <;> intro hcon <;> exact absurd hcon (by simp)
    · rw [hout]
      exact ⟨fun _ => hha, fun hcon => absurd hcon (by simp)⟩
    · rw [hout]
      constructor
      · intro hcon
        obtain rfl : st = 429 := by simpa using hcon
        exact absurd rfl hne
      · intro hcon
        exact absurd hcon (by simp)
    · exact ⟨fun _ => hha, fun _ => hha⟩

theorem fallback_loop_ground (env : FallbackEnv) :
    ∀ (fuel : Nat) (s : FallbackState),
      (∀ a ∈ (fallback_loop env fuel s).trace, a.healthAction = none) →
      (fallback_loop env fuel s).keystore = s.keystore ∧
      (fallback_loop env fuel s).active_set = s.active_set := by
  intro fuel
  induction fuel with
  | zero => intro s _; simp [fallback_loop]
  | succ n ih =>
    intro s hnone
    rw [fallback_loop] at hnone ⊢
    rcases hstep : fallback_step env s with ⟨s2, stop⟩
    rw [hstep] at hnone
    obtain ⟨-, hcases⟩ := fallback_step_cases env s s2 stop hstep
    rcases hcases with ⟨hrec, hstop⟩ | ⟨a, ha, -, -, hbr⟩
    · subst hstop
      simp only [] at hnone ⊢
      rw [hrec]
      exact ⟨rfl, rfl⟩
    · cases stop
      · simp only [] at hnone ⊢
        have hmem : a ∈ (fallback_loop env n s2).trace := by
          obtain ⟨t, ht⟩ := fallback_loop_trace_extends env n s2
          rw [ht, ha]
          simp
        have hnonea := hnone a hmem
        rcases hbr with ⟨hstop, -⟩ | ⟨-, -, -, hks, has2, -⟩ |
          ⟨-, -, hha, -⟩ | ⟨-, -, -, hks, has2, -⟩
        · exact absurd hstop (by simp)
        · obtain ⟨h1, h2⟩ := ih s2 hnone
          exact ⟨h1.trans hks, h2.trans has2⟩
        · rw [hha] at hnonea
          exact absurd hnonea (by simp)
        · obtain ⟨h1, h2⟩ := ih s2 hnone
          exact ⟨h1.trans hks, h2.trans has2⟩
      · simp only [] at hnone ⊢
        have hmem : a ∈ s2.trace := by rw [ha]; simp
        have hnonea := hnone a hmem
        rcases hbr with ⟨-, hha, -⟩ | ⟨hstop, -⟩ | ⟨hstop, -⟩ | ⟨hstop, -⟩
        · rw [hha] at hnonea
          exact absurd hnonea (by simp)
        · exact absurd hstop (by simp)
        · exact absurd hstop (by simp)
        · exact absurd hstop (by simp)

theorem count429_take_extend (l : List Attempt) (a : Attempt)
    (hP : ∀ k c, l[k]? = some c → 2 ≤ count429 (l.take k) c.model → False)
    (hnew : ¬ 2 ≤ count429 l a.model) :
    ∀ k c, (l ++ [a])[k]? = some c →
      2 ≤ count429 ((l ++ [a]).take k) c.model → False := by
  intro k c hk hcount
  rcases Nat.lt_trichotomy k l.length with hlt | heq | hgt
  · rw [List.getElem?_append_left hlt] at hk
    have htake : (l ++ [a]).take k = l.take k := by
      rw [List.take_append_eq_append_take, Nat.sub_eq_zero_of_le (le_of_lt hlt)]
      simp
    rw [htake] at hcount
    exact hP k c hk hcount
  · subst heq
    rw [List.getElem?_concat_length] at hk
    obtain rfl := Option.some.inj hk
    rw [List.take_left] at hcount
    exact hnew hcount
  · rw [List.getElem?_append_right (by omega)] at hk
    rw [List.getElem?_eq_none (by simp; omega)] at hk
    exact Option.noConfusion hk

theorem fallback_loop_blocked_iff_count (env : FallbackEnv) :
    ∀ (fuel : Nat) (s : FallbackState),
      (∀ M, M ∈ s.blocked_models ↔ 2 ≤ count429 s.trace M) →
      (∀ M, fmGet s.failed_models M = count429 s.trace M) →
      (∀ M, M ∈ (fallback_loop env fuel s).blocked_models ↔
        2 ≤ count429 (fallback_loop env fuel s).trace M) ∧
      (∀ M, fmGet (fallback_loop env fuel s).failed_models M =
        count429 (fallback_loop env fuel s).trace M) := by
  intro fuel
  induction fuel with
  | zero => intro s hJ hK; rw [fallback_loop]; exact ⟨hJ, hK⟩
  | succ n ih =>
    intro s hJ hK
    rw [fallback_loop]
    rcases hstep : fallback_step env s with ⟨s2, stop⟩
    obtain ⟨-, hcases⟩ := fallback_step_cases env s s2 stop hstep
    rcases hcases with ⟨rfl, -⟩ | ⟨a, ha, hnotbm, -, hbr⟩
    · cases stop
      · exact ih _ hJ hK
      · exact ⟨hJ, hK⟩
    · have hJK2 : (∀ M, M ∈ s2.blocked_models ↔ 2 ≤ count429 s2.trace M) ∧
          (∀ M, fmGet s2.failed_models M = count429 s2.trace M) := by
        rcases hbr with ⟨-, -, ⟨tok, hout⟩, -, hfm, hbm⟩ |
          ⟨-, hout, -, -, -, -, hfm, hbm⟩ |
          ⟨-, ⟨st, hout, hne⟩, -, -, hfm, hbm⟩ | ⟨-, houts, -, -, -, -, hfm, hbm⟩
        · have hne429 : a.outcome ≠ .apiError 429 := by rw [hout]; simp
          exact ⟨fun M => by rw [ha, hbm, count429_append_other _ _ _ hne429]; exact hJ M,
            fun M => by rw [ha, hfm, count429_append_other _ _ _ hne429]; exact hK M⟩
        · constructor
          · intro M
            rw [ha, hbm]
            by_cases hM : a.model = M
            · subst hM
              rw [count429_append_429 _ _ _ hout, if_pos rfl]
              have hKa := hK a.model
              by_cases hcnt : 2 ≤ fmGet s.failed_models a.model + 1
              · rw [if_pos hcnt, mem_saddList]
                constructor
                · intro _; omega
                · intro _; exact Or.inr rfl
              · rw [if_neg hcnt]
                constructor
                · intro hmem
                  have := (hJ a.model).mp hmem
                  omega
                · intro h2
                  exact absurd h2 (by omega)
            · rw [count429_append_429 _ _ _ hout, if_neg hM, Nat.add_zero]
              by_cases hcnt : 2 ≤ fmGet s.failed_models a.model + 1
              · rw [if_pos hcnt, mem_saddList]
                constructor
                · rintro (hmem | rfl)
                  · exact (hJ M).mp hmem
                  · exact absurd rfl hM
                · intro h2; exact Or.inl ((hJ M).mpr h2)
              · rw [if_neg hcnt]
                exact hJ M
          · intro M
            rw [ha, hfm]
            by_cases hM : M = a.model
            · subst hM
              rw [count429_append_429 _ _ _ hout, if_pos rfl]
              have hKm := hK a.model
              simp only [fmGet] at hKm ⊢
              rw [alistGet_set_self]
              simp only [Option.getD_some]
              omega
            · rw [count429_append_429 _ _ _ hout, if_neg (fun h => hM h.symm),
                Nat.add_zero]
              have hKm := hK M
              simp only [fmGet] at hKm ⊢
              rw [alistGet_set_ne _ _ _ _ (fun h => hM h.symm)]
              exact hKm
        · have hne429 : a.outcome ≠ .apiError 429 := by
            rw [hout]
            intro hcon
            obtain rfl : st = 429 := by simpa using hcon
            exact absurd rfl hne
          exact ⟨fun M => by rw [ha, hbm, count429_append_other _ _ _ hne429]; exact hJ M,
            fun M => by rw [ha, hfm, count429_append_other _ _ _ hne429]; exact hK M⟩
        · have hne429 : a.outcome ≠ .apiError 429 := by
            rcases houts with hout | hout <;> rw [hout] <;> simp
          exact ⟨fun M => by rw [ha, hbm, count429_append_other _ _ _ hne429]; exact hJ M,
            fun M => by rw [ha, hfm, count429_append_other _ _ _ hne429]; exact hK M⟩
      cases stop
      · exact ih s2 hJK2.1 hJK2.2
      · exact hJK2

theorem fallback_loop_no_blocked_reselect (env : FallbackEnv) :
    ∀ (fuel : Nat) (s : FallbackState),
      (∀ M, M ∈ s.blocked_models ↔ 2 ≤ count429 s.trace M) →
      (∀ M, fmGet s.failed_models M = count429 s.trace M) →
      (∀ k c, s.trace[k]? = some c → 2 ≤ count429 (s.trace.take k) c.model → False) →
      ∀ k c, (fallback_loop env fuel s).trace[k]? = some c →
        2 ≤ count429 ((fallback_loop env fuel s).trace.take k) c.model → False := by
  intro fuel
  induction fuel with
  | zero => intro s _ _ hP; simpa [fallback_loop] using hP
  | succ n ih =>
    intro s hJ hK hP
    rw [fallback_loop]
    rcases hstep : fallback_step env s with ⟨s2, stop⟩
    obtain ⟨-, hcases⟩ := fallback_step_cases env s s2 stop hstep
    rcases hcases with ⟨rfl, -⟩ | ⟨a, ha, hnotbm, -, hbr⟩
    · cases stop
      · exact ih _ hJ hK hP
      · exact hP
    · have hnew : ¬ 2 ≤ count429 s.trace a.model :=
        fun h2 => hnotbm ((hJ a.model).mpr h2)
      have hP2 : ∀ k c, s2.trace[k]? = some c →
          2 ≤ count429 (s2.trace.take k) c.model → False := by
        rw [ha]
        exact count429_take_extend s.trace a hP hnew
      cases stop
      · rcases hbr with ⟨hstop, -⟩ | ⟨-, hout, -, -, -, -, hfm, hbm⟩ |
          ⟨-, ⟨st, hout, hne⟩, -, -, hfm, hbm⟩ | ⟨-, houts, -, -, -, -, hfm, hbm⟩
        · exact absurd hstop (by simp)
        · -- 429 branch
          have hKa := hK a.model
          have hJ2 : ∀ M, M ∈ s2.blocked_models ↔ 2 ≤ count429 s2.trace M := by
            intro M
            rw [ha, hbm]
            by_cases hM : a.model = M
            · subst hM
              rw [count429_append_429 _ _ _ hout, if_pos rfl]
              by_cases hcnt : 2 ≤ fmGet s.failed_models a.model + 1
              · rw [if_pos hcnt, mem_saddList]
                constructor
                · intro _; omega
                · intro _; exact Or.inr rfl
              · rw [if_neg hcnt]
                constructor
                · intro hmem
                  have := (hJ a.model).mp hmem
                  omega
                · intro h2
                  exact absurd h2 (by omega)
            · rw [count429_append_429 _ _ _ hout, if_neg hM, Nat.add_zero]
              by_cases hcnt : 2 ≤ fmGet s.failed_models a.model + 1
              · rw [if_pos hcnt, mem_saddList]
                constructor
                · rintro (hmem | rfl)
                  · exact (hJ M).mp hmem
                  · exact absurd rfl hM
                · intro h2; exact Or.inl ((hJ M).mpr h2)
              · rw [if_neg hcnt]
                exact hJ M
          have hK2 : ∀ M, fmGet s2.failed_models M = count429 s2.trace M := by
            intro M
            rw [ha, hfm]
            by_cases hM : M = a.model
            · subst hM
              rw [count429_append_429 _ _ _ hout, if_pos rfl]
              have hKm := hK a.model
              simp only [fmGet] at hKm ⊢
              rw [alistGet_set_self]
              simp only [Option.getD_some]
              omega
            · rw [count429_append_429 _ _ _ hout, if_neg (fun h => hM h.symm),
                Nat.add_zero]
              have hKm := hK M
              simp only [fmGet] at hKm ⊢
              rw [alistGet_set_ne _ _ _ _ (fun h => hM h.symm)]
              exact hKm
          exact ih s2 hJ2 hK2 hP2
        · -- non-429 api error branch
          have hne429 : a.outcome ≠ .apiError 429 := by
            rw [hout]
            intro hcon
            obtain rfl : st = 429 := by simpa using hcon
            exact absurd rfl hne
          have hJ2 : ∀ M, M ∈ s2.blocked_models ↔ 2 ≤ count429 s2.trace M := by
            intro M
            rw [ha, hbm, count429_append_other _ _ _ hne429]
            exact hJ M
          have hK2 : ∀ M, fmGet s2.failed_models M = count429 s2.trace M := by
            intro M
            rw [ha, hfm, count429_append_other _ _ _ hne429]
            exact hK M
          exact ih s2 hJ2 hK2 hP2
        · -- transport or noKey branch
          have hne429 : a.outcome ≠ .apiError 429 := by
            rcases houts with hout | hout <;> rw [hout] <;> simp
          have hJ2 : ∀ M, M ∈ s2.blocked_models ↔ 2 ≤ count429 s2.trace M := by
            intro M
            rw [ha, hbm, count429_append_other _ _ _ hne429]
            exact hJ M
          have hK2 : ∀ M, fmGet s2.failed_models M = count429 s2.trace M := by
            intro M
            rw [ha, hfm, count429_append_other _ _ _ hne429]
            exact hK M
          exact ih s2 hJ2 hK2 hP2
      · exact hP2

/-! ## Claim theorems -/

/-- C5: for an existing credential record, recordOutcome with success sets
the health score to min(100, health + 5) and zeroes the consecutive-error
counter while leaving the active set alone; with failure it sets the health
score to max(0, health - 10) and increments the counter, and whenever the
new counter reaches 5 or more the entry becomes inactive and its handle is
removed from the active set. -/
theorem claim5_record_outcome_health (keystore : KeyStore)
    (active_set : List String) (key_hash : String) (e : APIKeyEntry)
    (h : alistGet keystore key_hash = some e) :
    (alistGet (update_health keystore active_set key_hash true).1 key_hash =
        some { e with health_score := min 100 (e.health_score + 5),
                      consecutive_errors := 0 } ∧
      (update_health keystore active_set key_hash true).2 = active_set) ∧
    (∃ e2, alistGet (update_health keystore active_set key_hash false).1 key_hash =
        some e2 ∧
      e2.health_score = max 0 (e.health_score - 10) ∧
      e2.consecutive_errors = e.consecutive_errors + 1 ∧
      (5 ≤ e.consecutive_errors + 1 →
        e2.is_active = false ∧
        key_hash ∉ (update_health keystore active_set key_hash false).2)) := by
  constructor
  · simp only [update_health, h, if_true]
    constructor
    · rw [alistGet_set_self, HEALTH_SCORE_MAX, HEALTH_SCORE_SUCCESS_DELTA]
    · trivial
  · simp only [update_health, h, if_false]
    by_cases hth : HEALTH_CONSECUTIVE_ERROR_DISABLE ≤ e.consecutive_errors + 1
    · rw [if_pos hth]
      refine ⟨_, alistGet_set_self _ _ _, ?_, rfl, fun _ => ⟨rfl, ?_⟩⟩
      · show max 0 (e.health_score + HEALTH_SCORE_FAILURE_DELTA) = _
        rw [HEALTH_SCORE_FAILURE_DELTA]
        exact congrArg (max 0) (by ring)
      · exact not_mem_sremList _ _
    · rw [if_neg hth]
      refine ⟨_, alistGet_set_self _ _ _, ?_, rfl, fun hcon =>
        absurd hcon (by simpa [HEALTH_CONSECUTIVE_ERROR_DISABLE] using hth)⟩
      show max 0 (e.health_score + HEALTH_SCORE_FAILURE_DELTA) = _
      rw [HEALTH_SCORE_FAILURE_DELTA]
      exact congrArg (max 0) (by ring)

/-- C6: when the stored date-stamp differs from the current quota-zone
date, check treats the stored daily counter as zero — so with a positive
RPD limit the check never blocks with the RPD reason, only with the RPM or
TPM reason or not at all — and record stores a daily counter of exactly 1
together with the new date-stamp. -/
theorem claim6_daily_boundary (store : RateLimitStore) (key_hash model : String)
    (estimated_tokens tokens_used : Nat) (now : Int) (today : String)
    (limits : RateLimits)
    (hlim : MODEL_RATE_LIMITS model = some limits)
    (hmis : (getRateRecord store key_hash model).last_rpd_reset ≠ today) :
    (0 < limits.rpd →
      check_rate_limit store key_hash model estimated_tokens now today = (true, none) ∨
      check_rate_limit store key_hash model estimated_tokens now today =
        (false, some (rpmReason limits.rpm)) ∨
      check_rate_limit store key_hash model estimated_tokens now today =
        (false, some (tpmReason limits.tpm))) ∧
    (∃ rec2, alistGet (record_request store key_hash model tokens_used now today)
        (key_hash, model) = some rec2 ∧
      rec2.rpd_count = 1 ∧ rec2.last_rpd_reset = today) := by
  constructor
  · intro hpos
    simp only [check_rate_limit, hlim]
    by_cases h1 : limits.rpm ≤
        ((getRateRecord store key_hash model).requests.filter
          (fun ts => now - 60 < ts)).length
    · right; left; rw [if_pos h1]
    · rw [if_neg h1, if_pos hmis, if_neg (by omega : ¬ limits.rpd ≤ 0)]
      by_cases h3 : limits.tpm <
          (((getRateRecord store key_hash model).tokens.filter
            (fun e => now - 60 < e.ts)).map (fun e => e.count)).sum + estimated_tokens
      · right; right; rw [if_pos h3]
      · left; rw [if_neg h3]
  · simp only [record_request]
    refine ⟨_, alistGet_set_self _ _ _, ?_, rfl⟩
    simp [hmis]

/-- C7: check evaluates the RPM, RPD and TPM limits in that order and
returns the first exceeded limit as the blocking reason, where RPM counts
timestamps strictly newer than now minus 60 against its limit with greater
or equal, RPD compares the date-reset daily counter with greater or equal,
and TPM blocks when the windowed token sum plus the estimate strictly
exceeds the limit; the embedding of the source equals the specification-side
definition on every input. -/
theorem claim7_check_order (store : RateLimitStore) (key_hash model : String)
    (estimated_tokens : Nat) (now : Int) (today : String) :
    check_rate_limit store key_hash model estimated_tokens now today =
      check_rate_limit_spec store key_hash model estimated_tokens now today := by
  unfold check_rate_limit check_rate_limit_spec
  cases hlim : MODEL_RATE_LIMITS model with
  | none => rfl
  | some limits =>
    simp only [ge_iff_le, gt_iff_lt]
    by_cases hd : (getRateRecord store key_hash model).last_rpd_reset = today
    · simp [hd]
    · simp [hd]

/-- C8: after cleanup on a stored rate-window record, every surviving
request timestamp and every surviving token entry is strictly newer than
now minus 60, while the daily counter and its date-stamp are unchanged. -/
theorem claim8_cleanup_window (store : RateLimitStore) (key_hash model : String)
    (now : Int) (r r2 : RateLimitRecord)
    (hold : alistGet store (key_hash, model) = some r)
    (hnew : alistGet (cleanup_old_data store key_hash model now)
      (key_hash, model) = some r2) :
    (∀ ts ∈ r2.requests, now - 60 < ts) ∧
    (∀ e ∈ r2.tokens, now - 60 < e.ts) ∧
    r2.rpd_count = r.rpd_count ∧
    r2.last_rpd_reset = r.last_rpd_reset := by
  simp only [cleanup_old_data, hold] at hnew
  rw [alistGet_set_self] at hnew
  obtain rfl := Option.some.inj hnew
  refine ⟨?_, ?_, rfl, rfl⟩
  · intro ts hts
    simpa using (List.mem_filter.mp hts).2
  · intro e he
    simpa using (List.mem_filter.mp he).2

/-- C9: adding a token whose hash already has a record merges — the stored
model set becomes the union of the old and the detected sets, the health
score and consecutive-error counter are preserved, the entry is set active
and its handle re-added to the active set — whereas update_models replaces
the stored model set with exactly the given list. -/
theorem claim9_merge_vs_replace (hash_key : String → String)
    (keystore : KeyStore) (active_set : List String)
    (api_key email : String) (available_models : List String)
    (notes project_id : String) (now : Nat) (e : APIKeyEntry)
    (hex : alistGet keystore (hash_key api_key) = some e) :
    (∃ e2, alistGet (add_api_key hash_key keystore active_set api_key email
          available_models notes project_id now).1 (hash_key api_key) = some e2 ∧
      (∀ m, m ∈ e2.available_models ↔
        m ∈ e.available_models ∨ m ∈ available_models) ∧
      e2.health_score = e.health_score ∧
      e2.consecutive_errors = e.consecutive_errors ∧
      e2.is_active = true ∧
      hash_key api_key ∈ (add_api_key hash_key keystore active_set api_key email
          available_models notes project_id now).2.1) ∧
    (∀ (ms : List String) (ks2 : KeyStore) (changed : Bool),
      update_models keystore (hash_key api_key) ms now = (ks2, changed) →
      ∃ e3, alistGet ks2 (hash_key api_key) = some e3 ∧
        (∀ m, m ∈ e3.available_models ↔ m ∈ ms)) := by
  constructor
  · simp only [add_api_key, hex]
    refine ⟨_, alistGet_set_self _ _ _, ?_, rfl, rfl, rfl, ?_⟩
    · intro m
      exact List.mem_union_iff
    · exact (mem_saddList _ _ _).mpr (Or.inr rfl)
  · intro ms ks2 changed hupd
    simp only [update_models, hex] at hupd
    split at hupd
    · rename_i hsame
      injection hupd with h1 h2
      subst h1
      refine ⟨e, hex, fun m => ⟨fun hm => hsame.1 m hm, fun hm => hsame.2 m hm⟩⟩
    · injection hupd with h1 h2
      subst h1
      exact ⟨_, alistGet_set_self _ _ _, fun m => Iff.rfl⟩

/-- C10: reset_rpd_all zeroes exactly the rpd_count field of every stored
rate-window record and returns the number of records it touched; the
request list, the token list, the date-stamp and the cached limit fields of
every record are unchanged. -/
theorem claim10_reset_rpd_frame (store : RateLimitStore) :
    (reset_rpd_all store).2 = store.length ∧
    (reset_rpd_all store).1.length = store.length ∧
    (∀ (i : Nat) (p p2 : (String × String) × RateLimitRecord),
      store[i]? = some p → (reset_rpd_all store).1[i]? = some p2 →
      p2.1 = p.1 ∧ p2.2.rpd_count = 0 ∧ p2.2.requests = p.2.requests ∧
      p2.2.tokens = p.2.tokens ∧ p2.2.last_rpd_reset = p.2.last_rpd_reset ∧
      p2.2.rpm_limit = p.2.rpm_limit ∧ p2.2.rpd_limit = p.2.rpd_limit ∧
      p2.2.tpm_limit = p.2.tpm_limit) := by
  refine ⟨rfl, by simp [reset_rpd_all], ?_⟩
  intro i p p2 hp hp2
  simp only [reset_rpd_all] at hp2
  rw [List.getElem?_map, hp] at hp2
  obtain rfl := Option.some.inj hp2
  exact ⟨rfl, rfl, rfl, rfl, rfl, rfl, rfl, rfl⟩

/-- C3 (amended): when the router picks a credential for a model, the
winning pair dominates every scored candidate in the Python tuple order —
every other candidate has a strictly smaller score, or an equal score and a
handle at or before the winner in code-point order.  In particular, among
candidates with exactly equal scores the router returns the
lexicographically greatest handle, deterministically. -/
theorem claim3_tie_greatest_handle (active_keys : List (String × APIKeyEntry))
    (check : String → String → Bool) (usage : String → String → UsageStats)
    (hw cw : Rat) (model : String) (exclude : List (String × String))
    (r : RouteResult)
    (h : tryModel active_keys check usage hw cw model exclude = some r) :
    ∃ s, (s, r.key_hash) ∈ scoredCandidates active_keys check usage hw cw model exclude ∧
      ∀ x ∈ scoredCandidates active_keys check usage hw cw model exclude,
        x.1 < s ∨ (x.1 = s ∧ (x.2.data < r.key_hash.data ∨ x.2 = r.key_hash)) := by
  obtain ⟨hm, s, hpb⟩ := tryModel_spec h
  refine ⟨s, pickBest_mem hpb, ?_⟩
  intro x hx
  have hnl := pickBest_not_lt hpb x hx
  rw [Prod.Lex.lt_iff] at hnl
  push_neg at hnl
  obtain ⟨h1, h2⟩ := hnl
  rcases lt_or_eq_of_le h1 with hlt | heq
  · exact Or.inl hlt
  · refine Or.inr ⟨heq, ?_⟩
    have h3 : x.2 ≤ r.key_hash := h2 heq.symm
    rcases lt_or_eq_of_le h3 with hlt2 | heq2
    · exact Or.inl (String.lt_iff_toList_lt.mp hlt2)
    · exact Or.inr heq2

/-- C3 counterexample: two credentials a and b with exactly equal scores
for the pro model; the handle first in ascending lexicographic order is a,
yet the router returns b. -/
theorem claim3_counterexample :
    scoredCandidates [("a", entryProOnly), ("b", entryProOnly)] chkAll usgZero
        ((4:Rat)/10) ((6:Rat)/10) GEMINI_25_PRO [] = [(100, "a"), (100, "b")] ∧
    select_best_key_and_model [("a", entryProOnly), ("b", entryProOnly)] chkAll
        usgZero ((4:Rat)/10) ((6:Rat)/10) (some GEMINI_25_PRO) none [] [] =
      some ⟨"b", GEMINI_25_PRO, "a@ex", "...aaaaaa"⟩ ∧
    ("a" : String).data < "b".data := by
  have hsc : _score ((4:Rat)/10) ((6:Rat)/10) (100 : Int) ({} : UsageStats) = 100 := by
    norm_num [_score]
  have h1 : scoredCandidates [("a", entryProOnly), ("b", entryProOnly)] chkAll usgZero
      ((4:Rat)/10) ((6:Rat)/10) GEMINI_25_PRO [] =
      [(_score ((4:Rat)/10) ((6:Rat)/10) (100 : Int) ({} : UsageStats), "a"),
       (_score ((4:Rat)/10) ((6:Rat)/10) (100 : Int) ({} : UsageStats), "b")] := rfl
  have h1r : scoredCandidates [("a", entryProOnly), ("b", entryProOnly)] chkAll usgZero
      ((4:Rat)/10) ((6:Rat)/10) GEMINI_25_PRO [] = [(100, "a"), (100, "b")] := by
    rw [h1, hsc]
  have hab : pyLt (100, "a") (100, "b") := by
    unfold pyLt
    exact Or.inr ⟨rfl, by decide⟩
  have hpick : pickBest (scoredCandidates [("a", entryProOnly), ("b", entryProOnly)]
      chkAll usgZero ((4:Rat)/10) ((6:Rat)/10) GEMINI_25_PRO []) = some (100, "b") := by
    rw [h1r]
    simp only [pickBest, pickBestAux]
    rw [if_pos hab]
  have htm : tryModel [("a", entryProOnly), ("b", entryProOnly)] chkAll usgZero
      ((4:Rat)/10) ((6:Rat)/10) GEMINI_25_PRO [] =
      some ⟨"b", GEMINI_25_PRO, "a@ex", "...aaaaaa"⟩ := by
    simp only [tryModel]
    rw [if_neg (by decide : ¬ ((eligibleFor [("a", entryProOnly), ("b", entryProOnly)]
      GEMINI_25_PRO []).isEmpty = true))]
    rw [hpick]
    rfl
  refine ⟨h1r, ?_, by decide⟩
  simp only [select_best_key_and_model]
  rw [if_neg (by decide :
    ¬ (([("a", entryProOnly), ("b", entryProOnly)] : List (String × APIKeyEntry)).isEmpty = true))]
  rw [show _build_model_order (some GEMINI_25_PRO) none =
    [GEMINI_25_PRO, GEMINI_3_FLASH, GEMINI_25_FLASH, GEMINI_25_FLASH_LITE] from by decide]
  rw [selectGo]
  rw [if_neg (by decide : ¬ (GEMINI_25_PRO ∈ ([] : List String)))]
  rw [if_neg (by decide : ¬ (capsTruthy none = true ∧
    ¬∀ c ∈ (none : Option (List String)).getD [], c ∈ MODEL_CAPABILITIES GEMINI_25_PRO))]
  rw [htm]

/-- C1: within one fallback run, a 429 failure never invokes a
credential-health update, and once two distinct credentials have failed
with status 429 on the same model, every later selection in that run
targets a different model. -/
theorem claim1_model_wide_block (env : FallbackEnv) (ks : KeyStore)
    (aset : List String) :
    (∀ a ∈ (_generate_with_fallback env ks aset).trace,
       a.outcome = .apiError 429 → a.healthAction = none) ∧
    (∀ (M : String) (i j : Nat) (a b : Attempt),
       (_generate_with_fallback env ks aset).trace[i]? = some a →
       (_generate_with_fallback env ks aset).trace[j]? = some b →
       a.key_hash ≠ b.key_hash →
       a.model = M → a.outcome = .apiError 429 →
       b.model = M → b.outcome = .apiError 429 →
       M ∈ (_generate_with_fallback env ks aset).blocked_models) ∧
    (∀ (M : String) (i j k : Nat) (a b c : Attempt),
       (_generate_with_fallback env ks aset).trace[i]? = some a →
       (_generate_with_fallback env ks aset).trace[j]? = some b →
       (_generate_with_fallback env ks aset).trace[k]? = some c →
       i < k → j < k → a.key_hash ≠ b.key_hash →
       a.model = M → a.outcome = .apiError 429 →
       b.model = M → b.outcome = .apiError 429 →
       c.model ≠ M) := by
  refine ⟨?_, ?_, ?_⟩
  · exact fallback_loop_attempt_pred env
      (fun a => a.outcome = .apiError 429 → a.healthAction = none)
      (fun s s2 stop a hstep ha => (fallback_step_health429 env s s2 stop a hstep ha).1)
      MAX_ATTEMPTS (initialFallbackState ks aset)
      (by intro a hmem; simp [initialFallbackState] at hmem)
  · intro M i j a b hi hj hne hma hoa hmb hob
    have hJ := (fallback_loop_blocked_iff_count env MAX_ATTEMPTS
      (initialFallbackState ks aset)
      (by intro M2; simp [initialFallbackState, count429])
      (by intro M2; simp [initialFallbackState, count429, fmGet, alistGet])).1
    have hij : i ≠ j := by
      intro hEq
      rw [hEq, hj] at hi
      obtain rfl := Option.some.inj hi
      exact hne rfl
    apply (hJ M).mpr
    unfold count429
    exact countP_two _ _ i j a b hij hi hj
      (decide_eq_true ⟨hma, hoa⟩) (decide_eq_true ⟨hmb, hob⟩)
  · intro M i j k a b c hi hj hk hik hjk hne hma hoa hmb hob
    intro hcM
    have hP := fallback_loop_no_blocked_reselect env MAX_ATTEMPTS
      (initialFallbackState ks aset)
      (by intro M2; simp [initialFallbackState, count429])
      (by intro M2; simp [initialFallbackState, count429, fmGet, alistGet])
      (by intro k2 c2 hc2; simp [initialFallbackState] at hc2)
    have hij : i ≠ j := by
      intro hEq
      rw [hEq, hj] at hi
      obtain rfl := Option.some.inj hi
      exact hne rfl
    have htakei : ((_generate_with_fallback env ks aset).trace.take k)[i]? = some a := by
      rw [List.getElem?_take, if_pos hik]
      exact hi
    have htakej : ((_generate_with_fallback env ks aset).trace.take k)[j]? = some b := by
      rw [List.getElem?_take, if_pos hjk]
      exact hj
    have hcount : 2 ≤ count429 ((_generate_with_fallback env ks aset).trace.take k) M := by
      unfold count429
      exact countP_two _ _ i j a b hij htakei htakej
        (decide_eq_true ⟨hma, hoa⟩) (decide_eq_true ⟨hmb, hob⟩)
    exact hP k c hk (by rw [hcM]; exact hcount)

/-- C2: every fallback run makes at most 20 attempts, the exclusion set
only grows along the loop and collects every failed attempt, and no
(handle, model) pair is selected twice within the same run. -/
theorem claim2_bounded_attempts_exclusion (env : FallbackEnv) (ks : KeyStore)
    (aset : List String) :
    (_generate_with_fallback env ks aset).total_attempts ≤ 20 ∧
    (∀ (fuel : Nat) (s : FallbackState),
      s.failed_pairs ⊆ (fallback_loop env fuel s).failed_pairs) ∧
    (∀ a ∈ (_generate_with_fallback env ks aset).trace,
      a.outcome.isSuccess = false →
      (a.key_hash, a.model) ∈ (_generate_with_fallback env ks aset).failed_pairs) ∧
    ((_generate_with_fallback env ks aset).trace.map
      (fun a => (a.key_hash, a.model))).Pairwise (fun p q => p ≠ q) := by
  refine ⟨?_, fallback_loop_pairs_mono env, ?_, ?_⟩
  · have := fallback_loop_attempts env MAX_ATTEMPTS (initialFallbackState ks aset)
    simpa [initialFallbackState, MAX_ATTEMPTS] using this
  · exact fallback_loop_failed_in env MAX_ATTEMPTS (initialFallbackState ks aset)
      (by intro a hmem; simp [initialFallbackState] at hmem)
  · exact fallback_loop_pairwise env MAX_ATTEMPTS (initialFallbackState ks aset)
      (by intro a hmem; simp [initialFallbackState] at hmem)
      (by simp [initialFallbackState])

/-- C4 (amended): a transport or unknown exception makes the executor add
the selected (handle, model) pair to the exclusion set and record the error,
but it applies no credential-health penalty: the attempt carries no health
action, and a run none of whose attempts carries a health action leaves the
credential store and the active set untouched. -/
theorem claim4_transport_no_penalty (env : FallbackEnv) (ks : KeyStore)
    (aset : List String) :
    (∀ a ∈ (_generate_with_fallback env ks aset).trace,
      a.outcome = .transport →
      a.healthAction = none ∧
      (a.key_hash, a.model) ∈ (_generate_with_fallback env ks aset).failed_pairs) ∧
    ((∀ a ∈ (_generate_with_fallback env ks aset).trace, a.healthAction = none) →
      (_generate_with_fallback env ks aset).keystore = ks ∧
      (_generate_with_fallback env ks aset).active_set = aset) := by
  constructor
  · intro a hmem htr
    constructor
    · exact fallback_loop_attempt_pred env
        (fun a => a.outcome = .transport → a.healthAction = none)
        (fun s s2 stop a hstep ha => (fallback_step_health429 env s s2 stop a hstep ha).2)
        MAX_ATTEMPTS (initialFallbackState ks aset)
        (by intro a2 hm2; simp [initialFallbackState] at hm2) a hmem htr
    · exact fallback_loop_failed_in env MAX_ATTEMPTS (initialFallbackState ks aset)
        (by intro a2 hm2; simp [initialFallbackState] at hm2) a hmem
        (by rw [htr]; rfl)
  · intro hnone
    exact fallback_loop_ground env MAX_ATTEMPTS (initialFallbackState ks aset) hnone

/-- C4 counterexample: with one stored credential of health 50 and an
upstream client that raises a transport exception, the run records the
failed attempt with no health action and the credential store is unchanged
afterwards — no credential-health penalty is applied. -/
theorem claim4_counterexample :
    (_generate_with_fallback envTransport ksTransport ["k1"]).trace =
      [⟨1, "k1", GEMINI_25_PRO, .transport, none⟩] ∧
    (_generate_with_fallback envTransport ksTransport ["k1"]).keystore = ksTransport ∧
    (_generate_with_fallback envTransport ksTransport ["k1"]).active_set = ["k1"] ∧
    alistGet ksTransport "k1" = some entryHealth50 ∧
    entryHealth50.health_score = 50 ∧
    entryHealth50.consecutive_errors = 0 := by
  exact ⟨by decide, by decide, by decide, by decide, rfl, rfl⟩

/-! ## Witness theorems -/

/-- Witness for the model-wide blocking claim: in the blocking scenario the
first two attempts are 429 failures on the pro model by the two distinct
credentials, and the third attempt indeed targets a different model. -/
theorem claim1_witness :
    (_generate_with_fallback envBlock ksBlock ["a", "b"]).trace[0]? =
      some ⟨1, "a", GEMINI_25_PRO, .apiError 429, none⟩ ∧
    (_generate_with_fallback envBlock ksBlock ["a", "b"]).trace[1]? =
      some ⟨2, "b", GEMINI_25_PRO, .apiError 429, none⟩ ∧
    (_generate_with_fallback envBlock ksBlock ["a", "b"]).trace[2]? =
      some ⟨3, "a", GEMINI_25_FLASH, .success 150, some true⟩ ∧
    (⟨3, "a", GEMINI_25_FLASH, .success 150, some true⟩ : Attempt).model ≠
      GEMINI_25_PRO ∧
    GEMINI_25_PRO ∈ (_generate_with_fallback envBlock ksBlock ["a", "b"]).blocked_models ∧
    (⟨1, "a", GEMINI_25_PRO, .apiError 429, none⟩ : Attempt).healthAction = none := by
  refine ⟨by decide, by decide, by decide, ?_, ?_, ?_⟩
  · exact (claim1_model_wide_block envBlock ksBlock ["a", "b"]).2.2 GEMINI_25_PRO 0 1 2
      ⟨1, "a", GEMINI_25_PRO, .apiError 429, none⟩
      ⟨2, "b", GEMINI_25_PRO, .apiError 429, none⟩
      ⟨3, "a", GEMINI_25_FLASH, .success 150, some true⟩
      (by decide) (by decide) (by decide) (by decide) (by decide) (by decide)
      rfl rfl rfl rfl
  · exact (claim1_model_wide_block envBlock ksBlock ["a", "b"]).2.1 GEMINI_25_PRO 0 1
      ⟨1, "a", GEMINI_25_PRO, .apiError 429, none⟩
      ⟨2, "b", GEMINI_25_PRO, .apiError 429, none⟩
      (by decide) (by decide) (by decide) rfl rfl rfl rfl
  · exact (claim1_model_wide_block envBlock ksBlock ["a", "b"]).1
      ⟨1, "a", GEMINI_25_PRO, .apiError 429, none⟩ (by decide) rfl

/-- Witness for the bounded-attempts claim: the bounded scenario makes at
most 20 attempts and its first failed pair lands in the exclusion set. -/
theorem claim2_witness :
    (_generate_with_fallback envBound ksBound ["a", "b"]).total_attempts ≤ 20 ∧
    ("a", GEMINI_25_PRO) ∈
      (_generate_with_fallback envBound ksBound ["a", "b"]).failed_pairs := by
  refine ⟨(claim2_bounded_attempts_exclusion envBound ksBound ["a", "b"]).1, ?_⟩
  exact (claim2_bounded_attempts_exclusion envBound ksBound ["a", "b"]).2.2.1
    ⟨1, "a", GEMINI_25_PRO, .apiError 429, none⟩ (by decide) (by decide)

/-- Witness for the tie-break claim: a single-candidate selection where the
routed credential dominates the scored list. -/
theorem claim3_witness :
    tryModel [("a", entryProOnly)] chkAll usgZero ((4:Rat)/10) ((6:Rat)/10)
        GEMINI_25_PRO [] = some ⟨"a", GEMINI_25_PRO, "a@ex", "...aaaaaa"⟩ ∧
    (∃ s, (s, "a") ∈ scoredCandidates [("a", entryProOnly)] chkAll usgZero
        ((4:Rat)/10) ((6:Rat)/10) GEMINI_25_PRO [] ∧
      ∀ x ∈ scoredCandidates [("a", entryProOnly)] chkAll usgZero
          ((4:Rat)/10) ((6:Rat)/10) GEMINI_25_PRO [],
        x.1 < s ∨ (x.1 = s ∧ (x.2.data < ("a" : String).data ∨ x.2 = "a"))) := by
  have h : tryModel [("a", entryProOnly)] chkAll usgZero ((4:Rat)/10) ((6:Rat)/10)
      GEMINI_25_PRO [] = some ⟨"a", GEMINI_25_PRO, "a@ex", "...aaaaaa"⟩ := by decide
  exact ⟨h, claim3_tie_greatest_handle _ _ _ _ _ _ _ _ h⟩

/-- Witness for the transport claim: the transport scenario records no
health action, excludes the failed pair and leaves the stores untouched. -/
theorem claim4_witness :
    ((⟨1, "k1", GEMINI_25_PRO, .transport, none⟩ : Attempt).healthAction = none ∧
      ("k1", GEMINI_25_PRO) ∈
        (_generate_with_fallback envTransport ksTransport ["k1"]).failed_pairs) ∧
    ((_generate_with_fallback envTransport ksTransport ["k1"]).keystore = ksTransport ∧
      (_generate_with_fallback envTransport ksTransport ["k1"]).active_set = ["k1"]) := by
  constructor
  · exact (claim4_transport_no_penalty envTransport ksTransport ["k1"]).1
      ⟨1, "k1", GEMINI_25_PRO, .transport, none⟩ (by decide) rfl
  · exact (claim4_transport_no_penalty envTransport ksTransport ["k1"]).2 (by decide)

/-- Witness for the health-update claim: a credential with four consecutive
errors is deactivated and removed from the active set by its fifth
failure. -/
theorem claim5_witness :
    alistGet [("k", entryFourErrors)] "k" = some entryFourErrors ∧
    (∃ e2, alistGet (update_health [("k", entryFourErrors)] ["k"] "k" false).1 "k" =
        some e2 ∧
      e2.health_score = max 0 (entryFourErrors.health_score - 10) ∧
      e2.consecutive_errors = entryFourErrors.consecutive_errors + 1 ∧
      (5 ≤ entryFourErrors.consecutive_errors + 1 →
        e2.is_active = false ∧
        "k" ∉ (update_health [("k", entryFourErrors)] ["k"] "k" false).2)) := by
  refine ⟨by decide, ?_⟩
  exact (claim5_record_outcome_health [("k", entryFourErrors)] ["k"] "k"
    entryFourErrors (by decide)).2

/-- Witness for the daily-boundary claim: a stale record from the previous
quota day with a saturated daily counter passes the RPD test and records a
fresh counter of 1. -/
theorem claim6_witness :
    MODEL_RATE_LIMITS GEMINI_25_PRO = some ⟨5, 100, 250000⟩ ∧
    (getRateRecord staleStore "h1" GEMINI_25_PRO).last_rpd_reset ≠ "2026-02-02" ∧
    ((0 < (⟨5, 100, 250000⟩ : RateLimits).rpd →
      check_rate_limit staleStore "h1" GEMINI_25_PRO 0 1065 "2026-02-02" =
        (true, none) ∨
      check_rate_limit staleStore "h1" GEMINI_25_PRO 0 1065 "2026-02-02" =
        (false, some (rpmReason (⟨5, 100, 250000⟩ : RateLimits).rpm)) ∨
      check_rate_limit staleStore "h1" GEMINI_25_PRO 0 1065 "2026-02-02" =
        (false, some (tpmReason (⟨5, 100, 250000⟩ : RateLimits).tpm))) ∧
    (∃ rec2, alistGet (record_request staleStore "h1" GEMINI_25_PRO 5 1065
        "2026-02-02") ("h1", GEMINI_25_PRO) = some rec2 ∧
      rec2.rpd_count = 1 ∧ rec2.last_rpd_reset = "2026-02-02")) := by
  refine ⟨by decide, by decide, ?_⟩
  exact claim6_daily_boundary staleStore "h1" GEMINI_25_PRO 0 5 1065 "2026-02-02"
    ⟨5, 100, 250000⟩ (by decide) (by decide)

/-- Witness for the cleanup claim: cleaning the stale record at clock 100
drops the timestamp 10 and keeps the daily counter and date-stamp. -/
theorem claim8_witness :
    alistGet staleStore ("h1", GEMINI_25_PRO) = some staleRecord ∧
    alistGet (cleanup_old_data staleStore "h1" GEMINI_25_PRO 100)
      ("h1", GEMINI_25_PRO) =
      some { staleRecord with requests := [50], tokens := [⟨50, 200⟩] } ∧
    ((∀ ts ∈ ({ staleRecord with requests := [50], tokens := [⟨50, 200⟩] } :
        RateLimitRecord).requests, (100 : Int) - 60 < ts) ∧
      (∀ e ∈ ({ staleRecord with requests := [50], tokens := [⟨50, 200⟩] } :
        RateLimitRecord).tokens, (100 : Int) - 60 < e.ts) ∧
      ({ staleRecord with requests := [50], tokens := [⟨50, 200⟩] } :
        RateLimitRecord).rpd_count = staleRecord.rpd_count ∧
      ({ staleRecord with requests := [50], tokens := [⟨50, 200⟩] } :
        RateLimitRecord).last_rpd_reset = staleRecord.last_rpd_reset) := by
  refine ⟨by decide, by decide, ?_⟩
  exact claim8_cleanup_window staleStore "h1" GEMINI_25_PRO 100 staleRecord
    { staleRecord with requests := [50], tokens := [⟨50, 200⟩] }
    (by decide) (by decide)

/-- Witness for the merge-versus-replace claim: re-adding key-abc123 merges
the model sets, keeps health 55 and two consecutive errors, and re-activates
the entry; update_models replaces the set outright. -/
theorem claim9_witness :
    alistGet ksMerge (hashFixture "key-abc123") = some entryMergeOld ∧
    ((∃ e2, alistGet (add_api_key hashFixture ksMerge [] "key-abc123" "new@ex"
          [GEMINI_25_FLASH] "" "" 7).1 (hashFixture "key-abc123") = some e2 ∧
      (∀ m, m ∈ e2.available_models ↔
        m ∈ entryMergeOld.available_models ∨ m ∈ [GEMINI_25_FLASH]) ∧
      e2.health_score = entryMergeOld.health_score ∧
      e2.consecutive_errors = entryMergeOld.consecutive_errors ∧
      e2.is_active = true ∧
      hashFixture "key-abc123" ∈ (add_api_key hashFixture ksMerge [] "key-abc123"
          "new@ex" [GEMINI_25_FLASH] "" "" 7).2.1) ∧
    (∀ (ms : List String) (ks2 : KeyStore) (changed : Bool),
      update_models ksMerge (hashFixture "key-abc123") ms 7 = (ks2, changed) →
      ∃ e3, alistGet ks2 (hashFixture "key-abc123") = some e3 ∧
        (∀ m, m ∈ e3.available_models ↔ m ∈ ms))) := by
  refine ⟨by decide, ?_⟩
  exact claim9_merge_vs_replace hashFixture ksMerge [] "key-abc123" "new@ex"
    [GEMINI_25_FLASH] "" "" 7 entryMergeOld (by decide)

/-- Witness for the daily-reset frame claim: resetting the two-record store
touches 2 records and zeroes the daily counter of the first while keeping
its key. -/
theorem claim10_witness :
    (reset_rpd_all staleStore).2 = 2 ∧
    ((("h1", GEMINI_25_PRO), { staleRecord with rpd_count := 0 }) :
      (String × String) × RateLimitRecord).2.rpd_count = 0 := by
  constructor
  · exact (claim10_reset_rpd_frame staleStore).1.trans (by decide)
  · exact ((claim10_reset_rpd_frame staleStore).2.2 0
      (("h1", GEMINI_25_PRO), staleRecord)
      (("h1", GEMINI_25_PRO), { staleRecord with rpd_count := 0 })
      (by decide) (by decide)).2.1

end Hydra
